import Mathlib

/-!
# OSProj: adaptive scheduler, tiered memory manager, security memory manager

A shallow embedding of `adaptive_scheduler.{h,cpp}`, `adaptive_memory_manager.{h,cpp}`
and `security_memory_manager.{h,cpp}`.

Modelling conventions.

* `pid_t`, `int` and `std::time_t` values are `Int`. Signed overflow is undefined
  behaviour in C++ and is outside the model.
* `size_t` values are `Nat`, every arithmetic operation on them is reduced modulo
  `2 ^ 64` explicitly (`size_add`, `size_sub`).
* `float` values are rationals; every float operation rounds its exact result to the
  nearest binary32 value, ties to even (`f32`). This is strict per-operation
  evaluation; all magnitudes that occur lie in the normal range of binary32.
  Division by zero, the only source of a non-finite value, is treated where it occurs.
* `std::unordered_map<pid_t, V>` is an association list in iteration order. The
  iteration order of the container is unspecified; the model puts a new key at the
  end, and theorems quantified over states hold for every order.
* `std::time(nullptr)` and the addresses returned by `malloc` are inputs.
* The mutex and the text written to `std::cout` are not modelled.
-/

namespace OSProj

/-! ## Machine arithmetic -/

/-- The C++ alias `using pid_t = int;`. -/
abbrev pid_t := Int

/-- Modulus of `size_t` arithmetic. -/
def SIZE_MOD : Nat := 2 ^ 64

/-- Addition of two `size_t` values. -/
def size_add (a b : Nat) : Nat := (a + b) % SIZE_MOD

/-- Subtraction of two `size_t` values. -/
def size_sub (a b : Nat) : Nat := (a + (SIZE_MOD - b % SIZE_MOD)) % SIZE_MOD

/-- Conversion of an `int` to `size_t`. -/
def size_of_int (i : Int) : Nat := (i % (SIZE_MOD : Int)).toNat

/-- Nearest integer to a rational, ties to the even neighbour. -/
def roundHalfEven (q : ℚ) : ℤ :=
  let fl := ⌊q⌋
  let r := q - fl
  if r < 1 / 2 then fl
  else if 1 / 2 < r then fl + 1
  else if fl % 2 = 0 then fl else fl + 1

/-- Rounding of an exact value to binary32 (24-bit significand, round to nearest even). -/
def f32 (q : ℚ) : ℚ :=
  if q = 0 then 0
  else
    let e : ℤ := Int.log 2 |q| - 23
    (roundHalfEven (q / (2 : ℚ) ^ e) : ℚ) * (2 : ℚ) ^ e

/-- Float addition. -/
def f32_add (a b : ℚ) : ℚ := f32 (a + b)

/-- Float subtraction. -/
def f32_sub (a b : ℚ) : ℚ := f32 (a - b)

/-- Float multiplication. -/
def f32_mul (a b : ℚ) : ℚ := f32 (a * b)

/-- Float division by a non-zero divisor. -/
def f32_div (a b : ℚ) : ℚ := f32 (a / b)

/-- The conversion `static_cast<int>(x)` of a float: truncation toward zero. -/
def f32_to_int (q : ℚ) : Int := if 0 ≤ q then ⌊q⌋ else ⌈q⌉

/-- The literal `0.1f`. -/
def c_0_1f : ℚ := f32 (1 / 10)

/-- The literal `0.7f`. -/
def c_0_7f : ℚ := f32 (7 / 10)

/-- The literal `0.3f`. -/
def c_0_3f : ℚ := f32 (3 / 10)

/-! ## `std::unordered_map<pid_t, V>` -/

namespace UMap

/-- Lookup `m.find(k)`. -/
def find {V : Type} : List (pid_t × V) → pid_t → Option V
  | [], _ => none
  | (k1, v) :: m, k => if k1 = k then some v else find m k

/-- Assignment `m[k] = v`: overwrite the entry of `k`, or create it. -/
def assign {V : Type} : List (pid_t × V) → pid_t → V → List (pid_t × V)
  | [], k, v => [(k, v)]
  | (k1, v1) :: m, k, v => if k1 = k then (k, v) :: m else (k1, v1) :: assign m k v

/-- Removal `m.erase(k)`. -/
def erase {V : Type} (m : List (pid_t × V)) (k : pid_t) : List (pid_t × V) :=
  m.filter (fun kv => decide (kv.1 ≠ k))

/-- Value read through `m[k]`: the stored value, or a value-initialised one. -/
def valueAt {V : Type} (m : List (pid_t × V)) (k : pid_t) (dflt : V) : V :=
  (find m k).getD dflt

/-- The container after an access `m[k]`: a missing key is created with the default. -/
def touch {V : Type} (m : List (pid_t × V)) (k : pid_t) (dflt : V) : List (pid_t × V) :=
  assign m k (UMap.valueAt m k dflt)

/-- Keys in iteration order. -/
def keys {V : Type} (m : List (pid_t × V)) : List pid_t := m.map Prod.fst

end UMap

/-- The vector operation `v[i] = f(v[i])` for an index known to be in range. -/
def modifyAt {α : Type} (f : α → α) : List α → Nat → List α
  | [], _ => []
  | x :: xs, 0 => f x :: xs
  | x :: xs, n + 1 => x :: modifyAt f xs n

/-- Insertion step of the sort: `x` goes before the first element it precedes. -/
def sortInsert {α : Type} (comp : α → α → Bool) (x : α) : List α → List α
  | [] => [x]
  | y :: ys => if comp x y then x :: y :: ys else y :: sortInsert comp x ys

/-- The call `std::sort(first, last, comp)`, as an insertion sort taking the elements
in their order in the vector; elements that `comp` does not separate keep their order. -/
def std_sort {α : Type} (comp : α → α → Bool) (l : List α) : List α :=
  l.foldl (fun acc x => sortInsert comp x acc) []

/-- The enum `SecurityLevel { LOW, MEDIUM, HIGH }`. -/
inductive SecurityLevel where
  | LOW
  | MEDIUM
  | HIGH
deriving DecidableEq, Repr

/-! ## security_memory_manager -/

/-- The enum `AccessType { READ, WRITE, EXECUTE }`. -/
inductive AccessType where
  | READ
  | WRITE
  | EXECUTE
deriving DecidableEq, Repr

/-- Per-process profile, `int trustScore = 100`. -/
structure SecurityProfile where
  trustScore : Int := 100
deriving DecidableEq, Repr

/-- An anomaly reported by the detector. -/
structure Anomaly where
  pid : pid_t
  severity : Int
deriving DecidableEq, Repr

/-- State of `SecurityMemoryManager`: the map `processSecurityProfiles`. -/
structure SecurityMemoryManager where
  processSecurityProfiles : List (pid_t × SecurityProfile)
deriving DecidableEq, Repr

namespace SecurityMemoryManager

/-- The struct `MemoryRegion` of security_memory_manager.h. -/
structure MemoryRegion where
  address : Nat
  size : Nat
  secLevel : SecurityLevel
deriving DecidableEq, Repr

/-- The enum `MemoryProtectionLevel`. -/
inductive MemoryProtectionLevel where
  | STANDARD
  | ENCRYPTED
  | HARDWARE_ISOLATED
  | FULLY_SECURED
deriving DecidableEq, Repr

/-- What the monitoring loop did with one anomaly. -/
inductive MonitorAction where
  | handleSecurityBreach (a : Anomaly)
  | logSuspiciousActivity (a : Anomaly)
deriving DecidableEq, Repr

/-- The constant `CRITICAL_THRESHOLD`. -/
def CRITICAL_THRESHOLD : Int := 80

/-- The constructor. -/
def init : SecurityMemoryManager := ⟨[]⟩

/-- Method `registerProcess`. -/
def registerProcess (s : SecurityMemoryManager) (pid : pid_t) : SecurityMemoryManager :=
  { s with processSecurityProfiles := UMap.assign s.processSecurityProfiles pid {} }

/-- Method `unregisterProcess`. -/
def unregisterProcess (s : SecurityMemoryManager) (pid : pid_t) : SecurityMemoryManager :=
  { s with processSecurityProfiles := UMap.erase s.processSecurityProfiles pid }

/-- Method `determineProtectionLevel`. -/
def determineProtectionLevel (req : SecurityLevel) (trust : Int) : MemoryProtectionLevel :=
  if req = SecurityLevel.HIGH ∧ trust < 50 then MemoryProtectionLevel.FULLY_SECURED
  else if req = SecurityLevel.HIGH then MemoryProtectionLevel.HARDWARE_ISOLATED
  else if req = SecurityLevel.MEDIUM then MemoryProtectionLevel.ENCRYPTED
  else MemoryProtectionLevel.STANDARD

/-- Stub `applyMemoryEncryption`: leaves the region as it is. -/
def applyMemoryEncryption (r : MemoryRegion) : MemoryRegion := r

/-- Stub `hardwareSupportsIsolation`. -/
def hardwareSupportsIsolation : Bool := false

/-- Method `createHardwareSecureEnclave`; `addr` is what `malloc` returned. -/
def createHardwareSecureEnclave (sz : Nat) (addr : Nat) : MemoryRegion :=
  { address := addr, size := sz, secLevel := SecurityLevel.HIGH }

/-- Stub `applyAccessPatternObfuscation`. -/
def applyAccessPatternObfuscation (r : MemoryRegion) : MemoryRegion := r

/-- Method `allocateSecureMemory`; `addr` and `enclaveAddr` are the results of the two
`malloc` calls the method can make. -/
def allocateSecureMemory (s : SecurityMemoryManager) (pid : pid_t) (size : Nat)
    (reqLevel : SecurityLevel) (addr enclaveAddr : Nat) :
    SecurityMemoryManager × MemoryRegion :=
  let secProfile : SecurityProfile := UMap.valueAt s.processSecurityProfiles pid {}
  let s1 : SecurityMemoryManager :=
    { s with processSecurityProfiles := UMap.touch s.processSecurityProfiles pid {} }
  let protLevel := determineProtectionLevel reqLevel secProfile.trustScore
  let region : MemoryRegion := { address := addr, size := size, secLevel := reqLevel }
  let region : MemoryRegion :=
    match protLevel with
    | MemoryProtectionLevel.ENCRYPTED => applyMemoryEncryption region
    | MemoryProtectionLevel.HARDWARE_ISOLATED =>
        if hardwareSupportsIsolation then createHardwareSecureEnclave size enclaveAddr
        else applyMemoryEncryption region
    | MemoryProtectionLevel.FULLY_SECURED =>
        applyAccessPatternObfuscation
          (applyMemoryEncryption (createHardwareSecureEnclave size enclaveAddr))
    | MemoryProtectionLevel.STANDARD => region
  (s1, region)

/-- Body of the loop of `monitorMemoryAccess` for one anomaly. -/
def processAnomaly (s : SecurityMemoryManager) (anomaly : Anomaly) :
    SecurityMemoryManager × MonitorAction :=
  if anomaly.severity > CRITICAL_THRESHOLD then
    (s, MonitorAction.handleSecurityBreach anomaly)
  else
    let secProfile : SecurityProfile := UMap.valueAt s.processSecurityProfiles anomaly.pid {}
    let secProfile : SecurityProfile :=
      { secProfile with trustScore := secProfile.trustScore - anomaly.severity }
    ({ s with processSecurityProfiles :=
          UMap.assign s.processSecurityProfiles anomaly.pid secProfile },
      MonitorAction.logSuspiciousActivity anomaly)

/-- The loop of `monitorMemoryAccess` over the anomalies the detector returned,
with the actions taken so far. -/
def monitorLoop : SecurityMemoryManager → List Anomaly → List MonitorAction →
    SecurityMemoryManager × List MonitorAction
  | s, [], acts => (s, acts)
  | s, a :: rest, acts =>
      monitorLoop (processAnomaly s a).1 rest (acts ++ [(processAnomaly s a).2])

/-- Method `monitorMemoryAccess`, from the point where the local `anomalies` is bound.
The method of the source takes no argument: `anomalies` is the result of its own call
`anomalyDetector.detectAnomalies()`, so the method as the class runs it is
`s.monitorMemoryAccess detectAnomalies`. -/
def monitorMemoryAccess (s : SecurityMemoryManager) (anomalies : List Anomaly) :
    SecurityMemoryManager :=
  (monitorLoop s anomalies []).1

/-- Stub `findMemoryRegion`: always the null pointer. -/
def findMemoryRegion (_s : SecurityMemoryManager) (_address : Nat) : Option MemoryRegion :=
  none

/-- Stub `checkAccessRights`. -/
def checkAccessRights (_pid : pid_t) (_r : MemoryRegion) (_access : AccessType) : Bool :=
  true

/-- Method `validateMemoryAccess`. -/
def validateMemoryAccess (s : SecurityMemoryManager) (pid : pid_t) (address : Nat)
    (_size : Nat) (access : AccessType) : Bool :=
  match findMemoryRegion s address with
  | none => true
  | some region => checkAccessRights pid region access

/-- Method `getAllPIDs`. -/
def getAllPIDs (s : SecurityMemoryManager) : List pid_t :=
  UMap.keys s.processSecurityProfiles

end SecurityMemoryManager

/-! ## adaptive_memory_manager -/

/-- The struct `MemoryRegion` of adaptive_memory_manager.h; `address` 0 is `nullptr`. -/
structure MemoryRegion where
  pid : pid_t
  size : Nat
  allocTime : Int
  secLevel : SecurityLevel
  address : Nat
deriving DecidableEq, Repr

/-- The struct `MemoryPrediction`; value-initialisation gives `expectedGrowth` 0. -/
structure MemoryPrediction where
  expectedGrowth : Nat := 0
deriving DecidableEq, Repr

namespace MemoryPrediction

/-- Method `update`: `expectedGrowth = currentUsage / 10 + 1024`. -/
def update (_p : MemoryPrediction) (currentUsage : Nat) : MemoryPrediction :=
  { expectedGrowth := size_add (currentUsage / 10) 1024 }

/-- Method `project`, a const method returning a copy:
`p.expectedGrowth += seconds / 60 * 256`. -/
def project (p : MemoryPrediction) (seconds : Int) : MemoryPrediction :=
  { expectedGrowth := size_add p.expectedGrowth (size_of_int (Int.tdiv seconds 60 * 256)) }

end MemoryPrediction

/-- The nested struct `AdaptiveMemoryManager::MemoryTier`. -/
structure MemoryTier where
  totalSize : Nat
  availableSize : Nat
  accessSpeed : ℚ
  allocations : List MemoryRegion
deriving DecidableEq, Repr

/-- State of `AdaptiveMemoryManager`. -/
structure AdaptiveMemoryManager where
  memoryTiers : List MemoryTier
  processMemoryNeeds : List (pid_t × MemoryPrediction)
  processMemoryUsage : List (pid_t × Nat)
deriving DecidableEq, Repr

namespace AdaptiveMemoryManager

/-- The constant `MEMORY_GROWTH_THRESHOLD`. -/
def MEMORY_GROWTH_THRESHOLD : Nat := 4096

/-- The constructor: three tiers (fast, normal, slow), all of their capacity available. -/
def init : AdaptiveMemoryManager :=
  { memoryTiers :=
      [ { totalSize := 64 * 1024 * 1024, availableSize := 64 * 1024 * 1024,
          accessSpeed := 1, allocations := [] },
        { totalSize := 256 * 1024 * 1024, availableSize := 256 * 1024 * 1024,
          accessSpeed := c_0_7f, allocations := [] },
        { totalSize := 1024 * 1024 * 1024, availableSize := 1024 * 1024 * 1024,
          accessSpeed := c_0_3f, allocations := [] } ],
    processMemoryNeeds := [],
    processMemoryUsage := [] }

/-- Method `registerProcess`. -/
def registerProcess (s : AdaptiveMemoryManager) (pid : pid_t) : AdaptiveMemoryManager :=
  { s with
    processMemoryNeeds := UMap.assign s.processMemoryNeeds pid {},
    processMemoryUsage := UMap.assign s.processMemoryUsage pid 0 }

/-- Method `unregisterProcess`. -/
def unregisterProcess (s : AdaptiveMemoryManager) (pid : pid_t) : AdaptiveMemoryManager :=
  { s with
    processMemoryNeeds := UMap.erase s.processMemoryNeeds pid,
    processMemoryUsage := UMap.erase s.processMemoryUsage pid }

/-- Sum of a `size_t` field over the tiers, as accumulated by `+=`. -/
def sumTiers (f : MemoryTier → Nat) (tiers : List MemoryTier) : Nat :=
  tiers.foldl (fun acc tier => size_add acc (f tier)) 0

/-- Method `calculateSystemMemoryUtilization`:
`1.0f - (float)available / (float)total`. The result is `none` when `total` is 0,
where the division yields a NaN or an infinity. -/
def calculateSystemMemoryUtilization (s : AdaptiveMemoryManager) : Option ℚ :=
  let total := sumTiers MemoryTier.totalSize s.memoryTiers
  let available := sumTiers MemoryTier.availableSize s.memoryTiers
  if total = 0 then none
  else some (f32_sub 1 (f32_div (f32 available) (f32 total)))

/-- The test `systemUtilization < 0.7f`. With `total` 0 the utilization is NaN when
`available` is 0 (every comparison is false) and minus infinity otherwise. -/
def utilizationIsLow (s : AdaptiveMemoryManager) : Bool :=
  match calculateSystemMemoryUtilization s with
  | some u => decide (u < c_0_7f)
  | none => decide (sumTiers MemoryTier.availableSize s.memoryTiers ≠ 0)

/-- Method `findUnderutilizedMemoryRegions`: the demo returns an empty vector. -/
def findUnderutilizedMemoryRegions (_s : AdaptiveMemoryManager) : List MemoryRegion := []

/-- Method `identifyMemoryStarvedProcesses`. -/
def identifyMemoryStarvedProcesses (s : AdaptiveMemoryManager) : List pid_t :=
  (s.processMemoryUsage.filter (fun kv => decide (kv.2 < 2048))).map Prod.fst

/-- Method `redistributeMemory`: the demo does nothing. -/
def redistributeMemory (s : AdaptiveMemoryManager) (_regions : List MemoryRegion)
    (_starved : List pid_t) : AdaptiveMemoryManager := s

/-- Method `analyzeMemoryUsage`; the flag tells whether `redistributeMemory` was called. -/
def analyzeMemoryUsage (s : AdaptiveMemoryManager) : AdaptiveMemoryManager × Bool :=
  let underutilizedRegions := findUnderutilizedMemoryRegions s
  let starvedProcesses := identifyMemoryStarvedProcesses s
  if utilizationIsLow s = true ∧ starvedProcesses ≠ [] then
    (redistributeMemory s underutilizedRegions starvedProcesses, true)
  else (s, false)

/-- Method `predictMemoryNeeds`; the second component is the amount passed to
`preAllocateMemory` when the hook is called. -/
def predictMemoryNeeds (s : AdaptiveMemoryManager) (pid : pid_t) (currentUsage : Nat) :
    AdaptiveMemoryManager × Option Nat :=
  let prediction : MemoryPrediction :=
    (UMap.valueAt s.processMemoryNeeds pid {}).update currentUsage
  let s1 : AdaptiveMemoryManager :=
    { s with
      processMemoryNeeds := UMap.assign s.processMemoryNeeds pid prediction,
      processMemoryUsage := UMap.assign s.processMemoryUsage pid currentUsage }
  let projectedNeeds := prediction.project (5 * 60)
  if projectedNeeds.expectedGrowth > MEMORY_GROWTH_THRESHOLD then
    (s1, some projectedNeeds.expectedGrowth)
  else (s1, none)

/-- Method `selectAppropriateMemoryTier`. -/
def selectAppropriateMemoryTier (_pid : pid_t) (secLevel : SecurityLevel) : Int :=
  match secLevel with
  | SecurityLevel.HIGH => 0
  | SecurityLevel.MEDIUM => 1
  | SecurityLevel.LOW => 2

/-- Method `allocateMemoryByTier`; `now` is the value of `getCurrentTime()`. -/
def allocateMemoryByTier (s : AdaptiveMemoryManager) (pid : pid_t) (size : Nat)
    (secLevel : SecurityLevel) (now : Int) : AdaptiveMemoryManager :=
  let tierIndex := selectAppropriateMemoryTier pid secLevel
  if 0 ≤ tierIndex ∧ tierIndex < (s.memoryTiers.length : Int) then
    let region : MemoryRegion :=
      { pid := pid, size := size, allocTime := now, secLevel := secLevel, address := 0 }
    { s with
      memoryTiers :=
        modifyAt
          (fun tier =>
            { tier with
              allocations := tier.allocations ++ [region],
              availableSize := size_sub tier.availableSize size })
          s.memoryTiers tierIndex.toNat,
      processMemoryUsage :=
        UMap.assign s.processMemoryUsage pid
          (size_add (UMap.valueAt s.processMemoryUsage pid 0) size) }
  else s

/-- Method `getTotalMemoryUsage`. -/
def getTotalMemoryUsage (s : AdaptiveMemoryManager) : Nat :=
  s.processMemoryUsage.foldl (fun total kv => size_add total kv.2) 0

/-- Method `getAllPIDs`: the keys of `processMemoryNeeds`. -/
def getAllPIDs (s : AdaptiveMemoryManager) : List pid_t :=
  UMap.keys s.processMemoryNeeds

/-- Method `getCurrentMemoryUsage`. -/
def getCurrentMemoryUsage (s : AdaptiveMemoryManager) (pid : pid_t) : Nat :=
  match UMap.find s.processMemoryUsage pid with
  | some usage => usage
  | none => 0

end AdaptiveMemoryManager

/-- A call of one public operation of `AdaptiveMemoryManager`. -/
inductive MemOp where
  | registerProcess (pid : pid_t)
  | unregisterProcess (pid : pid_t)
  | predictMemoryNeeds (pid : pid_t) (currentUsage : Nat)
  | allocateMemoryByTier (pid : pid_t) (size : Nat) (secLevel : SecurityLevel) (now : Int)
  | analyzeMemoryUsage
deriving DecidableEq, Repr

namespace MemOp

/-- State after one call. -/
def apply (s : AdaptiveMemoryManager) : MemOp → AdaptiveMemoryManager
  | registerProcess pid => s.registerProcess pid
  | unregisterProcess pid => s.unregisterProcess pid
  | predictMemoryNeeds pid currentUsage => (s.predictMemoryNeeds pid currentUsage).1
  | allocateMemoryByTier pid size secLevel now => s.allocateMemoryByTier pid size secLevel now
  | analyzeMemoryUsage => s.analyzeMemoryUsage.1

/-- State after a sequence of calls. -/
def run (s : AdaptiveMemoryManager) (ops : List MemOp) : AdaptiveMemoryManager :=
  ops.foldl apply s

/-- The call is not an allocation larger than what its tier has available. -/
def fits (s : AdaptiveMemoryManager) : MemOp → Bool
  | allocateMemoryByTier pid size secLevel _ =>
      match s.memoryTiers[(AdaptiveMemoryManager.selectAppropriateMemoryTier pid
        secLevel).toNat]? with
      | some tier => decide (size ≤ tier.availableSize)
      | none => true
  | _ => true

/-- Every allocation of the sequence fits at the moment it is made. -/
def allFit : AdaptiveMemoryManager → List MemOp → Bool
  | _, [] => true
  | s, op :: ops => fits s op && allFit (apply s op) ops

/-- The call is not an allocation for a pid without a prediction entry. -/
def onTracked (s : AdaptiveMemoryManager) : MemOp → Bool
  | allocateMemoryByTier pid _ _ _ => (UMap.find s.processMemoryNeeds pid).isSome
  | _ => true

/-- Every allocation of the sequence is for a pid that has a prediction entry at the
moment it is made. -/
def allOnTracked : AdaptiveMemoryManager → List MemOp → Bool
  | _, [] => true
  | s, op :: ops => onTracked s op && allOnTracked (apply s op) ops

end MemOp

/-! ## adaptive_scheduler -/

/-- The struct `UsageMetrics`; the constructor sets every field to 0. -/
structure UsageMetrics where
  lastInteractionTime : Int := 0
  interactionCount : Int := 0
  burstCount : Int := 0
  cpuUsage : Int := 0
  ioUsage : Int := 0
deriving DecidableEq, Repr

/-- The enum `ApplicationEvent::Type`. -/
inductive ApplicationEventType where
  | FOCUS_CHANGE
  | OTHER
deriving DecidableEq, Repr

/-- The struct `ApplicationEvent`. -/
structure ApplicationEvent where
  type : ApplicationEventType
  previous_pid : pid_t
deriving DecidableEq, Repr

/-- The struct `ApplicationProfile`. -/
structure ApplicationProfile where
  pid : pid_t
  name : String
deriving DecidableEq, Repr

/-- The struct `TimeSlice`. -/
structure TimeSlice where
  ms : Int
deriving DecidableEq, Repr

namespace ML

/-- Method `ML::PredictionModel::predict`:
`features.empty() ? 1.0f : features[0] * 0.1f + 1.0f`. -/
def predict (features : List ℚ) : ℚ :=
  match features with
  | [] => 1
  | f0 :: _ => f32_add (f32_mul f0 c_0_1f) 1

end ML

/-- The struct `AdaptiveScheduler::SchedulingDecision`. -/
structure SchedulingDecision where
  process_id : pid_t
  base_priority : Int
  importance_factor : ℚ
  allocation : TimeSlice
deriving DecidableEq, Repr

/-- State of `AdaptiveScheduler`. -/
structure AdaptiveScheduler where
  processMetrics : List (pid_t × UsageMetrics)
  userProfiles : List (pid_t × ApplicationProfile)
  dependencies : List (pid_t × List pid_t)
deriving DecidableEq, Repr

namespace AdaptiveScheduler

/-- The constructor. -/
def init : AdaptiveScheduler :=
  { processMetrics := [], userProfiles := [], dependencies := [] }

/-- Method `registerProcess`. -/
def registerProcess (s : AdaptiveScheduler) (pid : pid_t) (name : String) :
    AdaptiveScheduler :=
  { s with
    userProfiles := UMap.assign s.userProfiles pid { pid := pid, name := name },
    processMetrics := UMap.assign s.processMetrics pid {} }

/-- Method `unregisterProcess`. -/
def unregisterProcess (s : AdaptiveScheduler) (pid : pid_t) : AdaptiveScheduler :=
  { s with
    userProfiles := UMap.erase s.userProfiles pid,
    processMetrics := UMap.erase s.processMetrics pid,
    dependencies := UMap.erase s.dependencies pid }

/-- Method `recordApplicationDependency`: `dependencies[curr].push_back(prev)`. -/
def recordApplicationDependency (s : AdaptiveScheduler) (prev curr : pid_t) :
    AdaptiveScheduler :=
  { s with
    dependencies :=
      UMap.assign s.dependencies curr (UMap.valueAt s.dependencies curr [] ++ [prev]) }

/-- Method `updateUsageMetrics`; `now` is the value of `std::time(nullptr)`. -/
def updateUsageMetrics (s : AdaptiveScheduler) (pid : pid_t) (event : ApplicationEvent)
    (cpuUsage ioUsage : Int) (now : Int) : AdaptiveScheduler :=
  let metrics : UsageMetrics := UMap.valueAt s.processMetrics pid {}
  let metrics : UsageMetrics :=
    { metrics with
      lastInteractionTime := now,
      interactionCount := metrics.interactionCount + 1,
      cpuUsage := cpuUsage,
      ioUsage := ioUsage }
  let s1 : AdaptiveScheduler :=
    { s with processMetrics := UMap.assign s.processMetrics pid metrics }
  if event.type = ApplicationEventType.FOCUS_CHANGE then
    recordApplicationDependency s1 event.previous_pid pid
  else s1

/-- Method `timeSinceLastInteraction`. -/
def timeSinceLastInteraction (metrics : UsageMetrics) (now : Int) : ℚ :=
  f32 ((now - metrics.lastInteractionTime : Int) : ℚ)

/-- Method `getDependencyScore`:
`it != dependencies.end() ? 1.0f + 0.1f * it->second.size() : 1.0f`. -/
def getDependencyScore (s : AdaptiveScheduler) (pid : pid_t) : ℚ :=
  match UMap.find s.dependencies pid with
  | some deps => f32_add 1 (f32_mul c_0_1f (f32 (deps.length : ℚ)))
  | none => 1

/-- Stub `getTimeOfDayRelevance`. -/
def getTimeOfDayRelevance (_pid : pid_t) : ℚ := 1

/-- Stub `getSystemPerformanceFactor`. -/
def getSystemPerformanceFactor (_pid : pid_t) : ℚ := 1

/-- Method `calculateBasePriority`: `static_cast<int>(importance * 10)`. -/
def calculateBasePriority (importance : ℚ) : Int :=
  f32_to_int (f32_mul importance (f32 10))

/-- Method `calculateTimeSlice`: `{static_cast<int>(100 * importance * perf)}`. -/
def calculateTimeSlice (importance perf : ℚ) : TimeSlice :=
  { ms := f32_to_int (f32_mul (f32_mul (f32 100) importance) perf) }

/-- Body of the loop of `calculateProcessPriorities`: the decision for one entry. -/
def decide_for (s : AdaptiveScheduler) (now : Int) (pid : pid_t) (metrics : UsageMetrics) :
    SchedulingDecision :=
  let importance :=
    ML.predict
      [ f32 (metrics.interactionCount : ℚ),
        timeSinceLastInteraction metrics now,
        getDependencyScore s pid,
        getTimeOfDayRelevance pid,
        f32 (metrics.cpuUsage : ℚ),
        f32 (metrics.ioUsage : ℚ) ]
  let performanceFactor := getSystemPerformanceFactor pid
  { process_id := pid,
    base_priority := calculateBasePriority importance,
    importance_factor := f32_mul importance performanceFactor,
    allocation := calculateTimeSlice importance performanceFactor }

/-- The comparator passed to `std::sort`:
`a.importance_factor > b.importance_factor`. -/
def importanceGreater (a b : SchedulingDecision) : Bool :=
  decide (a.importance_factor > b.importance_factor)

/-- Method `calculateProcessPriorities`; `now` is the value of `std::time(nullptr)`. -/
def calculateProcessPriorities (s : AdaptiveScheduler) (now : Int) :
    List SchedulingDecision :=
  std_sort importanceGreater
    (s.processMetrics.map (fun kv => decide_for s now kv.1 kv.2))

/-- Method `getAllPIDs`. -/
def getAllPIDs (s : AdaptiveScheduler) : List pid_t :=
  UMap.keys s.processMetrics

end AdaptiveScheduler

/-- One call of `updateUsageMetrics` with its arguments and the clock reading. -/
structure UpdateCall where
  pid : pid_t
  event : ApplicationEvent
  cpuUsage : Int
  ioUsage : Int
  now : Int
deriving DecidableEq, Repr

namespace UpdateCall

/-- State after a sequence of `updateUsageMetrics` calls. -/
def run (s : AdaptiveScheduler) (calls : List UpdateCall) : AdaptiveScheduler :=
  calls.foldl (fun st c => st.updateUsageMetrics c.pid c.event c.cpuUsage c.ioUsage c.now) s

/-- The call is a FOCUS_CHANGE update of `pid`. -/
def isFocusChangeOn (pid : pid_t) (c : UpdateCall) : Bool :=
  decide (c.pid = pid) && decide (c.event.type = ApplicationEventType.FOCUS_CHANGE)

end UpdateCall

/-! ## Lemmas on the container model -/

namespace UMap

theorem find_assign_same {V : Type} (m : List (pid_t × V)) (k : pid_t) (v : V) :
    find (assign m k v) k = some v := by
  induction m with
  | nil => simp [assign, find]
  | cons kv m ih =>
    obtain ⟨k1, v1⟩ := kv
    by_cases h : k1 = k
    · simp [assign, find, h]
    · simp [assign, find, h, ih]

theorem find_assign_other {V : Type} (m : List (pid_t × V)) (k q : pid_t) (v : V)
    (hq : q ≠ k) : find (assign m k v) q = find m q := by
  induction m with
  | nil => simp [assign, find, Ne.symm hq]
  | cons kv m ih =>
    obtain ⟨k1, v1⟩ := kv
    by_cases h : k1 = k
    · subst h
      simp [assign, find, Ne.symm hq]
    · by_cases h2 : k1 = q
      · subst h2
        simp [assign, find, h]
      · simp [assign, find, h, h2, ih]

theorem find_erase_same {V : Type} (m : List (pid_t × V)) (k : pid_t) :
    find (erase m k) k = none := by
  induction m with
  | nil => simp [erase, find]
  | cons kv m ih =>
    obtain ⟨k1, v1⟩ := kv
    by_cases h : k1 = k
    · simpa [erase, h] using ih
    · simpa [erase, find, h] using ih

theorem find_erase_other {V : Type} (m : List (pid_t × V)) (k q : pid_t) (hq : q ≠ k) :
    find (erase m k) q = find m q := by
  induction m with
  | nil => simp [erase, find]
  | cons kv m ih =>
    obtain ⟨k1, v1⟩ := kv
    by_cases h : k1 = k
    · subst h
      simpa [erase, find, Ne.symm hq] using ih
    · by_cases h2 : k1 = q
      · subst h2
        simp [erase, find, h]
      · simpa [erase, find, h, h2] using ih

theorem mem_keys_iff_find {V : Type} (m : List (pid_t × V)) (k : pid_t) :
    k ∈ keys m ↔ (find m k).isSome = true := by
  induction m with
  | nil => simp [keys, find]
  | cons kv m ih =>
    obtain ⟨k1, v1⟩ := kv
    by_cases h : k1 = k
    · simp [keys, find, h]
    · have h2 : ¬ k = k1 := fun e => h e.symm
      simpa [keys, find, h, h2] using ih

end UMap

/-! ## security_memory_manager: protection level -/

/-- C1: `determineProtectionLevel` follows the decision table: HIGH gives FULLY_SECURED
below trust 50 and HARDWARE_ISOLATED from 50 on, MEDIUM gives ENCRYPTED and LOW gives
STANDARD, whatever the trust score. -/
theorem determineProtectionLevel_table (req : SecurityLevel) (trust : Int) :
    SecurityMemoryManager.determineProtectionLevel req trust =
      match req with
      | SecurityLevel.HIGH =>
          if trust < 50 then SecurityMemoryManager.MemoryProtectionLevel.FULLY_SECURED
          else SecurityMemoryManager.MemoryProtectionLevel.HARDWARE_ISOLATED
      | SecurityLevel.MEDIUM => SecurityMemoryManager.MemoryProtectionLevel.ENCRYPTED
      | SecurityLevel.LOW => SecurityMemoryManager.MemoryProtectionLevel.STANDARD := by
  cases req <;> simp [SecurityMemoryManager.determineProtectionLevel]

/-! ## Lemmas on `size_t` arithmetic and vector update -/


theorem size_sub_of_le (a b : Nat) (hb : b ≤ a) (ha : a < SIZE_MOD) : size_sub a b = a - b := by
  unfold size_sub SIZE_MOD at *
  omega

theorem size_sub_of_lt (a b : Nat) (hab : a < b) (hb : b < SIZE_MOD) :
    size_sub a b = a + SIZE_MOD - b := by
  unfold size_sub SIZE_MOD at *
  omega

theorem length_modifyAt {α : Type} (f : α → α) (l : List α) (n : Nat) :
    (modifyAt f l n).length = l.length := by
  induction l generalizing n with
  | nil => simp [modifyAt]
  | cons x xs ih =>
    cases n with
    | zero => simp [modifyAt]
    | succ n => simp [modifyAt, ih]

theorem getElem?_modifyAt_same {α : Type} (f : α → α) (l : List α) (n : Nat) :
    (modifyAt f l n)[n]? = (l[n]?).map f := by
  induction l generalizing n with
  | nil => simp [modifyAt]
  | cons x xs ih =>
    cases n with
    | zero => simp [modifyAt]
    | succ n => simp [modifyAt, ih]

theorem getElem?_modifyAt_other {α : Type} (f : α → α) (l : List α) (n j : Nat) (h : j ≠ n) :
    (modifyAt f l n)[j]? = l[j]? := by
  induction l generalizing n j with
  | nil => simp [modifyAt]
  | cons x xs ih =>
    cases n with
    | zero =>
      cases j with
      | zero => exact absurd rfl h
      | succ j => simp [modifyAt]
    | succ n =>
      cases j with
      | zero => simp [modifyAt]
      | succ j =>
        have : j ≠ n := fun e => h (by rw [e])
        simp [modifyAt, ih n j this]

theorem mem_modifyAt {α : Type} (f : α → α) (l : List α) (n : Nat) (y : α)
    (hy : y ∈ modifyAt f l n) : y ∈ l ∨ ∃ x, l[n]? = some x ∧ y = f x := by
  induction l generalizing n with
  | nil => simp [modifyAt] at hy
  | cons x xs ih =>
    cases n with
    | zero =>
      simp only [modifyAt, List.mem_cons] at hy
      rcases hy with h | h
      · right; exact ⟨x, by simp, h⟩
      · left; exact List.mem_cons_of_mem _ h
    | succ n =>
      simp only [modifyAt, List.mem_cons] at hy
      rcases hy with h | h
      · left; simp [h]
      · rcases ih n h with h1 | ⟨z, hz, hyz⟩
        · left; exact List.mem_cons_of_mem _ h1
        · right; exact ⟨z, by simpa using hz, hyz⟩

/-! ## adaptive_memory_manager: allocation -/

namespace AdaptiveMemoryManager

/-- The tier an allocation writes: the record is appended, the size is subtracted. -/
theorem allocateMemoryByTier_tiers (s : AdaptiveMemoryManager) (pid : pid_t) (size : Nat)
    (secLevel : SecurityLevel) (now : Int) (h3 : s.memoryTiers.length = 3) :
    (allocateMemoryByTier s pid size secLevel now).memoryTiers =
      modifyAt
        (fun tier =>
          { tier with
            allocations := tier.allocations ++
              [{ pid := pid, size := size, allocTime := now, secLevel := secLevel,
                 address := 0 }],
            availableSize := size_sub tier.availableSize size })
        s.memoryTiers (selectAppropriateMemoryTier pid secLevel).toNat := by
  cases secLevel <;> simp [allocateMemoryByTier, selectAppropriateMemoryTier, h3]

theorem allocateMemoryByTier_usage (s : AdaptiveMemoryManager) (pid : pid_t) (size : Nat)
    (secLevel : SecurityLevel) (now : Int) (h3 : s.memoryTiers.length = 3) :
    (allocateMemoryByTier s pid size secLevel now).processMemoryUsage =
      UMap.assign s.processMemoryUsage pid
        (size_add (UMap.valueAt s.processMemoryUsage pid 0) size) := by
  cases secLevel <;> simp [allocateMemoryByTier, selectAppropriateMemoryTier, h3]

theorem allocateMemoryByTier_needs (s : AdaptiveMemoryManager) (pid : pid_t) (size : Nat)
    (secLevel : SecurityLevel) (now : Int) :
    (allocateMemoryByTier s pid size secLevel now).processMemoryNeeds =
      s.processMemoryNeeds := by
  unfold allocateMemoryByTier
  simp only
  split <;> rfl

theorem selected_tier_exists (s : AdaptiveMemoryManager) (pid : pid_t)
    (secLevel : SecurityLevel) (h3 : s.memoryTiers.length = 3) :
    ∃ tier, s.memoryTiers[(selectAppropriateMemoryTier pid secLevel).toNat]? = some tier := by
  have hlt : (selectAppropriateMemoryTier pid secLevel).toNat < s.memoryTiers.length := by
    cases secLevel <;> simp [selectAppropriateMemoryTier, h3]
  exact ⟨s.memoryTiers[(selectAppropriateMemoryTier pid secLevel).toNat], by simp [hlt]⟩

end AdaptiveMemoryManager

/-- C4: `selectAppropriateMemoryTier` depends on the security level only (0 for HIGH,
1 for MEDIUM, 2 for LOW, for every pid), and in every state with the three tiers of the
manager `allocateMemoryByTier` appends the region record to the tier of that index and
leaves every other tier as it was. -/
theorem allocateMemoryByTier_places_in_selected_tier (s : AdaptiveMemoryManager)
    (pid : pid_t) (size : Nat) (secLevel : SecurityLevel) (now : Int)
    (h3 : s.memoryTiers.length = 3) :
    (∀ p : pid_t, AdaptiveMemoryManager.selectAppropriateMemoryTier p secLevel =
      match secLevel with
      | SecurityLevel.HIGH => 0
      | SecurityLevel.MEDIUM => 1
      | SecurityLevel.LOW => 2) ∧
    (∃ tier,
      s.memoryTiers[(AdaptiveMemoryManager.selectAppropriateMemoryTier pid secLevel).toNat]?
        = some tier ∧
      (s.allocateMemoryByTier pid size secLevel now).memoryTiers[
        (AdaptiveMemoryManager.selectAppropriateMemoryTier pid secLevel).toNat]? =
        some { tier with
          allocations := tier.allocations ++
            [{ pid := pid, size := size, allocTime := now, secLevel := secLevel,
               address := 0 }],
          availableSize := size_sub tier.availableSize size }) ∧
    (∀ j : Nat, j ≠ (AdaptiveMemoryManager.selectAppropriateMemoryTier pid secLevel).toNat →
      (s.allocateMemoryByTier pid size secLevel now).memoryTiers[j]? = s.memoryTiers[j]?) := by
  refine ⟨?_, ?_, ?_⟩
  · intro p
    cases secLevel <;> rfl
  · obtain ⟨tier, ht⟩ := AdaptiveMemoryManager.selected_tier_exists s pid secLevel h3
    refine ⟨tier, ht, ?_⟩
    rw [AdaptiveMemoryManager.allocateMemoryByTier_tiers s pid size secLevel now h3,
      getElem?_modifyAt_same, ht]
    rfl
  · intro j hj
    rw [AdaptiveMemoryManager.allocateMemoryByTier_tiers s pid size secLevel now h3,
      getElem?_modifyAt_other _ _ _ _ hj]

/-- C4, at a concrete state: a HIGH allocation of 4096 bytes in the freshly constructed
manager. -/
theorem allocateMemoryByTier_places_in_selected_tier_witness :
    AdaptiveMemoryManager.init.memoryTiers.length = 3 ∧
    ((∀ p : pid_t, AdaptiveMemoryManager.selectAppropriateMemoryTier p SecurityLevel.HIGH =
      match SecurityLevel.HIGH with
      | SecurityLevel.HIGH => 0
      | SecurityLevel.MEDIUM => 1
      | SecurityLevel.LOW => 2) ∧
    (∃ tier,
      AdaptiveMemoryManager.init.memoryTiers[
        (AdaptiveMemoryManager.selectAppropriateMemoryTier 7 SecurityLevel.HIGH).toNat]?
        = some tier ∧
      (AdaptiveMemoryManager.init.allocateMemoryByTier 7 4096 SecurityLevel.HIGH
        1000).memoryTiers[
        (AdaptiveMemoryManager.selectAppropriateMemoryTier 7 SecurityLevel.HIGH).toNat]? =
        some { tier with
          allocations := tier.allocations ++
            [{ pid := 7, size := 4096, allocTime := 1000, secLevel := SecurityLevel.HIGH,
               address := 0 }],
          availableSize := size_sub tier.availableSize 4096 }) ∧
    (∀ j : Nat,
      j ≠ (AdaptiveMemoryManager.selectAppropriateMemoryTier 7 SecurityLevel.HIGH).toNat →
      (AdaptiveMemoryManager.init.allocateMemoryByTier 7 4096 SecurityLevel.HIGH
        1000).memoryTiers[j]? = AdaptiveMemoryManager.init.memoryTiers[j]?)) :=
  ⟨rfl, allocateMemoryByTier_places_in_selected_tier AdaptiveMemoryManager.init 7 4096
    SecurityLevel.HIGH 1000 rfl⟩

/-- C2 fails on the code: in the freshly constructed manager tier 0 has 67108864 bytes
available; a HIGH allocation of 67108865 bytes is carried out all the same. The tier
gets the region record, its `availableSize` wraps to 2^64 - 1, and pid 1 gets a tracked
total. -/
theorem allocateMemoryByTier_oversized_is_applied :
    (AdaptiveMemoryManager.init.memoryTiers[0]?).map MemoryTier.availableSize
      = some 67108864 ∧
    AdaptiveMemoryManager.selectAppropriateMemoryTier 1 SecurityLevel.HIGH = 0 ∧
    (((AdaptiveMemoryManager.init.allocateMemoryByTier 1 67108865 SecurityLevel.HIGH
      0).memoryTiers[0]?).map MemoryTier.availableSize = some 18446744073709551615) ∧
    (((AdaptiveMemoryManager.init.allocateMemoryByTier 1 67108865 SecurityLevel.HIGH
      0).memoryTiers[0]?).map MemoryTier.allocations =
      some [{ pid := 1, size := 67108865, allocTime := 0, secLevel := SecurityLevel.HIGH,
              address := 0 }]) ∧
    AdaptiveMemoryManager.init.processMemoryUsage = [] ∧
    (AdaptiveMemoryManager.init.allocateMemoryByTier 1 67108865 SecurityLevel.HIGH
      0).processMemoryUsage = [(1, 67108865)] := by
  refine ⟨rfl, rfl, ?_, rfl, rfl, ?_⟩
  · simp [AdaptiveMemoryManager.allocateMemoryByTier, AdaptiveMemoryManager.init,
      AdaptiveMemoryManager.selectAppropriateMemoryTier, modifyAt, size_sub, SIZE_MOD]
  · simp [AdaptiveMemoryManager.allocateMemoryByTier, AdaptiveMemoryManager.init,
      AdaptiveMemoryManager.selectAppropriateMemoryTier, UMap.assign, UMap.valueAt,
      UMap.find, size_add, SIZE_MOD]

/-- C2, amended: in a state with three tiers, an allocation of `size < 2^64` bytes that
exceeds the `availableSize` of its tier is not rejected. The region record is appended to
that tier, whose `availableSize` becomes `availableSize + 2^64 - size`; the other tiers
are unchanged; the tracked total of `pid` becomes its old value (0 when it had none) plus
`size` modulo 2^64, and the totals of the other pids and the predictions are unchanged. -/
theorem allocateMemoryByTier_oversized_wraps (s : AdaptiveMemoryManager) (pid : pid_t)
    (size : Nat) (secLevel : SecurityLevel) (now : Int) (tier : MemoryTier)
    (h3 : s.memoryTiers.length = 3)
    (ht : s.memoryTiers[(AdaptiveMemoryManager.selectAppropriateMemoryTier pid
      secLevel).toNat]? = some tier)
    (hover : tier.availableSize < size) (hsize : size < SIZE_MOD) :
    (s.allocateMemoryByTier pid size secLevel now).memoryTiers[
        (AdaptiveMemoryManager.selectAppropriateMemoryTier pid secLevel).toNat]? =
      some { tier with
        allocations := tier.allocations ++
          [{ pid := pid, size := size, allocTime := now, secLevel := secLevel,
             address := 0 }],
        availableSize := tier.availableSize + SIZE_MOD - size } ∧
    (∀ j : Nat, j ≠ (AdaptiveMemoryManager.selectAppropriateMemoryTier pid secLevel).toNat →
      (s.allocateMemoryByTier pid size secLevel now).memoryTiers[j]? = s.memoryTiers[j]?) ∧
    UMap.find (s.allocateMemoryByTier pid size secLevel now).processMemoryUsage pid =
      some ((UMap.valueAt s.processMemoryUsage pid 0 + size) % SIZE_MOD) ∧
    (∀ q : pid_t, q ≠ pid →
      UMap.find (s.allocateMemoryByTier pid size secLevel now).processMemoryUsage q =
        UMap.find s.processMemoryUsage q) ∧
    (s.allocateMemoryByTier pid size secLevel now).processMemoryNeeds =
      s.processMemoryNeeds := by
  refine ⟨?_, ?_, ?_, ?_, ?_⟩
  · rw [AdaptiveMemoryManager.allocateMemoryByTier_tiers s pid size secLevel now h3,
      getElem?_modifyAt_same, ht]
    simp only [Option.map, size_sub_of_lt _ _ hover hsize]
  · intro j hj
    rw [AdaptiveMemoryManager.allocateMemoryByTier_tiers s pid size secLevel now h3,
      getElem?_modifyAt_other _ _ _ _ hj]
  · rw [AdaptiveMemoryManager.allocateMemoryByTier_usage s pid size secLevel now h3,
      UMap.find_assign_same]
    rfl
  · intro q hq
    rw [AdaptiveMemoryManager.allocateMemoryByTier_usage s pid size secLevel now h3,
      UMap.find_assign_other _ _ _ _ hq]
  · exact AdaptiveMemoryManager.allocateMemoryByTier_needs s pid size secLevel now

/-- C2, amended, at the freshly constructed manager with a HIGH allocation of
67108865 bytes. -/
theorem allocateMemoryByTier_oversized_wraps_witness :
    (AdaptiveMemoryManager.init.allocateMemoryByTier 1 67108865 SecurityLevel.HIGH
        0).memoryTiers[
        (AdaptiveMemoryManager.selectAppropriateMemoryTier 1 SecurityLevel.HIGH).toNat]? =
      some
        { totalSize := 64 * 1024 * 1024,
          availableSize := 64 * 1024 * 1024 + SIZE_MOD - 67108865,
          accessSpeed := 1,
          allocations :=
            [] ++
              [{ pid := 1, size := 67108865, allocTime := 0, secLevel := SecurityLevel.HIGH,
                 address := 0 }] } ∧
    UMap.find (AdaptiveMemoryManager.init.allocateMemoryByTier 1 67108865 SecurityLevel.HIGH
        0).processMemoryUsage 1 =
      some ((UMap.valueAt AdaptiveMemoryManager.init.processMemoryUsage 1 0 + 67108865)
        % SIZE_MOD) :=
  have h := allocateMemoryByTier_oversized_wraps AdaptiveMemoryManager.init 1 67108865
    SecurityLevel.HIGH 0
    { totalSize := 64 * 1024 * 1024, availableSize := 64 * 1024 * 1024, accessSpeed := 1,
      allocations := [] }
    rfl rfl (by decide) (by decide)
  ⟨h.1, h.2.2.1⟩

/-! ## adaptive_memory_manager: the capacity invariant -/

namespace MemOp

/-- Every tier has `availableSize ≤ totalSize`, and `totalSize` is a 64-bit value. -/
theorem withinCapacity_apply (s : AdaptiveMemoryManager) (op : MemOp)
    (hinv : ∀ t ∈ s.memoryTiers, t.availableSize ≤ t.totalSize ∧ t.totalSize < SIZE_MOD)
    (hfit : fits s op = true) :
    ∀ t ∈ (apply s op).memoryTiers, t.availableSize ≤ t.totalSize ∧ t.totalSize < SIZE_MOD := by
  cases op with
  | registerProcess pid => exact hinv
  | unregisterProcess pid => exact hinv
  | predictMemoryNeeds pid currentUsage =>
    simp only [apply, AdaptiveMemoryManager.predictMemoryNeeds]
    split <;> exact hinv
  | analyzeMemoryUsage =>
    simp only [apply, AdaptiveMemoryManager.analyzeMemoryUsage,
      AdaptiveMemoryManager.redistributeMemory]
    split <;> exact hinv
  | allocateMemoryByTier pid size secLevel now =>
    intro t ht
    simp only [apply, AdaptiveMemoryManager.allocateMemoryByTier] at ht
    split at ht
    · rcases mem_modifyAt _ _ _ _ ht with h | ⟨tier, htier, rfl⟩
      · exact hinv t h
      · have hmem : tier ∈ s.memoryTiers := List.getElem?_mem htier
        have hle : size ≤ tier.availableSize := by
          simp only [fits, htier, decide_eq_true_eq] at hfit
          exact hfit
        obtain ⟨h1, h2⟩ := hinv tier hmem
        refine ⟨?_, h2⟩
        show size_sub tier.availableSize size ≤ tier.totalSize
        rw [size_sub_of_le _ _ hle (lt_of_le_of_lt h1 h2)]
        omega
    · exact hinv t ht

theorem withinCapacity_run (ops : List MemOp) (s : AdaptiveMemoryManager)
    (hinv : ∀ t ∈ s.memoryTiers, t.availableSize ≤ t.totalSize ∧ t.totalSize < SIZE_MOD)
    (hfit : allFit s ops = true) :
    ∀ t ∈ (run s ops).memoryTiers, t.availableSize ≤ t.totalSize ∧ t.totalSize < SIZE_MOD := by
  induction ops generalizing s with
  | nil => exact hinv
  | cons op ops ih =>
    simp only [allFit, Bool.and_eq_true] at hfit
    exact ih (apply s op) (withinCapacity_apply s op hinv hfit.1) hfit.2

end MemOp

theorem length_memoryTiers_apply (s : AdaptiveMemoryManager) (op : MemOp) :
    (MemOp.apply s op).memoryTiers.length = s.memoryTiers.length := by
  cases op with
  | registerProcess pid => rfl
  | unregisterProcess pid => rfl
  | predictMemoryNeeds pid currentUsage =>
    simp only [MemOp.apply, AdaptiveMemoryManager.predictMemoryNeeds]
    split <;> rfl
  | analyzeMemoryUsage =>
    simp only [MemOp.apply, AdaptiveMemoryManager.analyzeMemoryUsage,
      AdaptiveMemoryManager.redistributeMemory]
    split <;> rfl
  | allocateMemoryByTier pid size secLevel now =>
    simp only [MemOp.apply, AdaptiveMemoryManager.allocateMemoryByTier]
    split
    · exact length_modifyAt _ _ _
    · rfl

/-- Every state reached from the constructor has the three tiers it created. -/
theorem length_memoryTiers_run (ops : List MemOp) :
    (MemOp.run AdaptiveMemoryManager.init ops).memoryTiers.length = 3 := by
  have h : ∀ (l : List MemOp) (s : AdaptiveMemoryManager),
      (MemOp.run s l).memoryTiers.length = s.memoryTiers.length := by
    intro l
    induction l with
    | nil => intro s; rfl
    | cons op l ih =>
      intro s
      have hrun : MemOp.run s (op :: l) = MemOp.run (MemOp.apply s op) l := rfl
      rw [hrun, ih, length_memoryTiers_apply]
  rw [h]
  rfl

theorem withinCapacity_init :
    ∀ t ∈ AdaptiveMemoryManager.init.memoryTiers,
      t.availableSize ≤ t.totalSize ∧ t.totalSize < SIZE_MOD := by
  intro t ht
  simp only [AdaptiveMemoryManager.init, List.mem_cons, List.mem_singleton,
    List.not_mem_nil, or_false] at ht
  rcases ht with rfl | rfl | rfl <;> simp [SIZE_MOD]

/-- C3 fails on the code: one public call on the freshly constructed manager, a HIGH
allocation of 67108865 bytes, leaves tier 0 with `availableSize` 2^64 - 1, above its
`totalSize` 67108864. -/
theorem availableSize_exceeds_totalSize_after_oversized_allocation :
    (MemOp.run AdaptiveMemoryManager.init
      [MemOp.allocateMemoryByTier 1 67108865 SecurityLevel.HIGH 0]).memoryTiers.map
        (fun t => (t.availableSize, t.totalSize)) =
      [(18446744073709551615, 67108864), (268435456, 268435456),
        (1073741824, 1073741824)] ∧
    ¬ (∀ t ∈ (MemOp.run AdaptiveMemoryManager.init
      [MemOp.allocateMemoryByTier 1 67108865 SecurityLevel.HIGH 0]).memoryTiers,
        t.availableSize ≤ t.totalSize) := by
  have h : (MemOp.run AdaptiveMemoryManager.init
      [MemOp.allocateMemoryByTier 1 67108865 SecurityLevel.HIGH 0]).memoryTiers.map
        (fun t => (t.availableSize, t.totalSize)) =
      [(18446744073709551615, 67108864), (268435456, 268435456),
        (1073741824, 1073741824)] := by
    simp [MemOp.run, MemOp.apply, AdaptiveMemoryManager.allocateMemoryByTier,
      AdaptiveMemoryManager.init, AdaptiveMemoryManager.selectAppropriateMemoryTier,
      modifyAt, size_sub, SIZE_MOD]
  refine ⟨h, ?_⟩
  intro hall
  have h2 : ∀ p ∈ (MemOp.run AdaptiveMemoryManager.init
      [MemOp.allocateMemoryByTier 1 67108865 SecurityLevel.HIGH 0]).memoryTiers.map
        (fun t => (t.availableSize, t.totalSize)), p.1 ≤ p.2 := by
    intro p hp
    obtain ⟨t, ht, rfl⟩ := List.mem_map.1 hp
    exact hall t ht
  rw [h] at h2
  have := h2 (18446744073709551615, 67108864) (by simp)
  omega

/-- C3, amended: in every state reached from the freshly constructed manager by a
sequence of public operations in which each allocation is at most the `availableSize`
of its tier at the time of the call, every tier has `availableSize ≤ totalSize`
(and `availableSize`, a natural number below 2^64, is never negative). -/
theorem availableSize_le_totalSize_of_fitting_allocations (ops : List MemOp)
    (hfit : MemOp.allFit AdaptiveMemoryManager.init ops = true) :
    ∀ t ∈ (MemOp.run AdaptiveMemoryManager.init ops).memoryTiers,
      0 ≤ t.availableSize ∧ t.availableSize ≤ t.totalSize ∧ t.availableSize < SIZE_MOD := by
  intro t ht
  obtain ⟨h1, h2⟩ := MemOp.withinCapacity_run ops AdaptiveMemoryManager.init
    withinCapacity_init hfit t ht
  exact ⟨Nat.zero_le _, h1, lt_of_le_of_lt h1 h2⟩

/-- C3, amended, at a concrete sequence: register, predict, two allocations that fit,
analyze, unregister. -/
theorem availableSize_le_totalSize_of_fitting_allocations_witness :
    MemOp.allFit AdaptiveMemoryManager.init
      [MemOp.registerProcess 1, MemOp.predictMemoryNeeds 1 5000,
        MemOp.allocateMemoryByTier 1 4096 SecurityLevel.MEDIUM 10,
        MemOp.allocateMemoryByTier 1 67108864 SecurityLevel.HIGH 11,
        MemOp.analyzeMemoryUsage, MemOp.unregisterProcess 1] = true ∧
    ∀ t ∈ (MemOp.run AdaptiveMemoryManager.init
      [MemOp.registerProcess 1, MemOp.predictMemoryNeeds 1 5000,
        MemOp.allocateMemoryByTier 1 4096 SecurityLevel.MEDIUM 10,
        MemOp.allocateMemoryByTier 1 67108864 SecurityLevel.HIGH 11,
        MemOp.analyzeMemoryUsage, MemOp.unregisterProcess 1]).memoryTiers,
      0 ≤ t.availableSize ∧ t.availableSize ≤ t.totalSize ∧ t.availableSize < SIZE_MOD :=
  have hfit : MemOp.allFit AdaptiveMemoryManager.init
      [MemOp.registerProcess 1, MemOp.predictMemoryNeeds 1 5000,
        MemOp.allocateMemoryByTier 1 4096 SecurityLevel.MEDIUM 10,
        MemOp.allocateMemoryByTier 1 67108864 SecurityLevel.HIGH 11,
        MemOp.analyzeMemoryUsage, MemOp.unregisterProcess 1] = true := by
    decide
  ⟨hfit, availableSize_le_totalSize_of_fitting_allocations _ hfit⟩

/-! ## adaptive_memory_manager: effect of an allocation that fits -/

/-- C5 fails on the code in its last part: after `registerProcess(1)` and
`predictMemoryNeeds(1, 2^64 - 1)` on the freshly constructed manager, pid 1 is registered
with tracked total 2^64 - 1 and tier 2 has 1073741824 bytes available; a LOW allocation
of 1 byte then leaves the tracked total of pid 1 at 0, not one byte higher. -/
theorem allocateMemoryByTier_usage_total_wraps :
    ((AdaptiveMemoryManager.init.registerProcess 1).predictMemoryNeeds 1
      18446744073709551615).1.memoryTiers.length = 3 ∧
    UMap.find ((AdaptiveMemoryManager.init.registerProcess 1).predictMemoryNeeds 1
      18446744073709551615).1.processMemoryUsage 1 = some 18446744073709551615 ∧
    AdaptiveMemoryManager.selectAppropriateMemoryTier 1 SecurityLevel.LOW = 2 ∧
    (((AdaptiveMemoryManager.init.registerProcess 1).predictMemoryNeeds 1
      18446744073709551615).1.memoryTiers[2]?).map MemoryTier.availableSize
        = some 1073741824 ∧
    UMap.find ((((AdaptiveMemoryManager.init.registerProcess 1).predictMemoryNeeds 1
      18446744073709551615).1).allocateMemoryByTier 1 1 SecurityLevel.LOW
        0).processMemoryUsage 1 = some 0 := by
  decide

/-- C5, amended: in a state with three tiers, for a pid with a tracked total `u` and a
size that is at most the `availableSize` (a 64-bit value) of the selected tier,
`allocateMemoryByTier` appends exactly one region record (pid, size, level) at the end of
that tier's allocation list, lowers that tier's `availableSize` by exactly `size`, leaves
the other tiers unchanged, and sets the tracked total of `pid` to `(u + size) mod 2^64`,
which is `u + size` whenever that sum is below 2^64. -/
theorem allocateMemoryByTier_effect (s : AdaptiveMemoryManager) (pid : pid_t) (size : Nat)
    (secLevel : SecurityLevel) (now : Int) (tier : MemoryTier) (u : Nat)
    (h3 : s.memoryTiers.length = 3)
    (ht : s.memoryTiers[(AdaptiveMemoryManager.selectAppropriateMemoryTier pid
      secLevel).toNat]? = some tier)
    (hu : UMap.find s.processMemoryUsage pid = some u)
    (hfit : size ≤ tier.availableSize) (hrange : tier.availableSize < SIZE_MOD) :
    (s.allocateMemoryByTier pid size secLevel now).memoryTiers[
        (AdaptiveMemoryManager.selectAppropriateMemoryTier pid secLevel).toNat]? =
      some { tier with
        allocations := tier.allocations ++
          [{ pid := pid, size := size, allocTime := now, secLevel := secLevel,
             address := 0 }],
        availableSize := tier.availableSize - size } ∧
    (∀ j : Nat, j ≠ (AdaptiveMemoryManager.selectAppropriateMemoryTier pid secLevel).toNat →
      (s.allocateMemoryByTier pid size secLevel now).memoryTiers[j]? = s.memoryTiers[j]?) ∧
    UMap.find (s.allocateMemoryByTier pid size secLevel now).processMemoryUsage pid =
      some ((u + size) % SIZE_MOD) ∧
    (u + size < SIZE_MOD →
      UMap.find (s.allocateMemoryByTier pid size secLevel now).processMemoryUsage pid =
        some (u + size)) := by
  have husage :
      UMap.find (s.allocateMemoryByTier pid size secLevel now).processMemoryUsage pid =
        some ((u + size) % SIZE_MOD) := by
    rw [AdaptiveMemoryManager.allocateMemoryByTier_usage s pid size secLevel now h3,
      UMap.find_assign_same]
    simp only [UMap.valueAt, hu, Option.getD_some, size_add]
  refine ⟨?_, ?_, husage, ?_⟩
  · rw [AdaptiveMemoryManager.allocateMemoryByTier_tiers s pid size secLevel now h3,
      getElem?_modifyAt_same, ht]
    simp only [Option.map, size_sub_of_le _ _ hfit hrange]
  · intro j hj
    rw [AdaptiveMemoryManager.allocateMemoryByTier_tiers s pid size secLevel now h3,
      getElem?_modifyAt_other _ _ _ _ hj]
  · intro hlt
    rw [husage, Nat.mod_eq_of_lt hlt]

/-- C5, amended, at the example of the specification: with capacities [10, 20, 40] a LOW
allocation of 15 bytes for the registered pid 5 goes to tier 2, whose `availableSize`
goes from 40 to 25, and the tracked total of pid 5 goes from 0 to 15. -/
theorem allocateMemoryByTier_effect_witness :
    AdaptiveMemoryManager.selectAppropriateMemoryTier 5 SecurityLevel.LOW = 2 ∧
    (AdaptiveMemoryManager.allocateMemoryByTier
      { memoryTiers :=
          [ { totalSize := 10, availableSize := 10, accessSpeed := 1, allocations := [] },
            { totalSize := 20, availableSize := 20, accessSpeed := c_0_7f, allocations := [] },
            { totalSize := 40, availableSize := 40, accessSpeed := c_0_3f, allocations := [] } ],
        processMemoryNeeds := [(5, { expectedGrowth := 0 })],
        processMemoryUsage := [(5, 0)] }
      5 15 SecurityLevel.LOW 1000).memoryTiers[2]? =
      some
        { totalSize := 40, availableSize := 25, accessSpeed := c_0_3f,
          allocations :=
            [{ pid := 5, size := 15, allocTime := 1000, secLevel := SecurityLevel.LOW,
               address := 0 }] } ∧
    UMap.find (AdaptiveMemoryManager.allocateMemoryByTier
      { memoryTiers :=
          [ { totalSize := 10, availableSize := 10, accessSpeed := 1, allocations := [] },
            { totalSize := 20, availableSize := 20, accessSpeed := c_0_7f, allocations := [] },
            { totalSize := 40, availableSize := 40, accessSpeed := c_0_3f, allocations := [] } ],
        processMemoryNeeds := [(5, { expectedGrowth := 0 })],
        processMemoryUsage := [(5, 0)] }
      5 15 SecurityLevel.LOW 1000).processMemoryUsage 5 = some 15 :=
  have h := allocateMemoryByTier_effect
    { memoryTiers :=
        [ { totalSize := 10, availableSize := 10, accessSpeed := 1, allocations := [] },
          { totalSize := 20, availableSize := 20, accessSpeed := c_0_7f, allocations := [] },
          { totalSize := 40, availableSize := 40, accessSpeed := c_0_3f, allocations := [] } ],
      processMemoryNeeds := [(5, { expectedGrowth := 0 })],
      processMemoryUsage := [(5, 0)] }
    5 15 SecurityLevel.LOW 1000
    { totalSize := 40, availableSize := 40, accessSpeed := c_0_3f, allocations := [] } 0
    rfl rfl rfl (by decide) (by decide)
  ⟨rfl, h.1, h.2.2.2 (by decide)⟩

/-! ## Lemmas on the float model and on the sort -/

theorem f32_zero : f32 0 = 0 := by
  simp [f32]

theorem f32_one : f32 1 = 1 := by
  simp [f32, roundHalfEven]
  norm_num

theorem int_log_two_eq (q : ℚ) (k : ℤ) (h1 : (2 : ℚ) ^ k ≤ q) (h2 : q < (2 : ℚ) ^ (k + 1)) :
    Int.log 2 q = k := by
  have hq : 0 < q := lt_of_lt_of_le (zpow_pos (by norm_num) k) h1
  have hb : 1 < (2 : ℕ) := by norm_num
  apply le_antisymm
  · have := (Int.lt_zpow_iff_log_lt hb hq (x := k + 1)).1 (by simpa using h2)
    omega
  · exact (Int.zpow_le_iff_le_log hb hq).1 (by simpa using h1)

theorem roundHalfEven_of_near (x : ℚ) (m : ℤ) (h1 : (m : ℚ) - 1 / 2 < x)
    (h2 : x < (m : ℚ) + 1 / 2) : roundHalfEven x = m := by
  unfold roundHalfEven
  simp only
  by_cases hx : (m : ℚ) ≤ x
  · have hfl : ⌊x⌋ = m := by
      rw [Int.floor_eq_iff]
      constructor
      · exact hx
      · linarith
    rw [hfl, if_pos (by linarith)]
  · have hx2 : x < m := not_le.1 hx
    have hfl : ⌊x⌋ = m - 1 := by
      rw [Int.floor_eq_iff]
      constructor
      · push_cast; linarith
      · push_cast; linarith
    rw [hfl]
    have : ¬ (x - ((m - 1 : ℤ) : ℚ) < 1 / 2) := by push_cast; linarith
    rw [if_neg this, if_pos (by push_cast; linarith)]
    ring

/-- Evaluation of the rounding away from a tie: a positive `q` whose scaled value
`q / 2^e` lies in `[2^23, 2^24)` and within 1/2 of the integer `m` rounds to `m * 2^e`. -/
theorem f32_eq_of_near (q : ℚ) (m e : ℤ) (hlo : (2 : ℚ) ^ (23 : ℤ) ≤ q / (2 : ℚ) ^ e)
    (hhi : q / (2 : ℚ) ^ e < (2 : ℚ) ^ (24 : ℤ))
    (h1 : (m : ℚ) - 1 / 2 < q / (2 : ℚ) ^ e) (h2 : q / (2 : ℚ) ^ e < (m : ℚ) + 1 / 2) :
    f32 q = (m : ℚ) * (2 : ℚ) ^ e := by
  have hpos : (0 : ℚ) < (2 : ℚ) ^ e := zpow_pos (by norm_num) e
  have hq : 0 < q := by
    have : 0 < q / (2 : ℚ) ^ e := lt_of_lt_of_le (zpow_pos (by norm_num) _) hlo
    exact (div_pos_iff_of_pos_right hpos).1 this
  have hlog : Int.log 2 |q| = e + 23 := by
    rw [abs_of_pos hq]
    apply int_log_two_eq
    · rw [zpow_add₀ (by norm_num)]
      have := (le_div_iff₀ hpos).1 hlo
      linarith
    · rw [show e + 23 + 1 = e + 24 by ring, zpow_add₀ (by norm_num)]
      have := (div_lt_iff₀ hpos).1 hhi
      linarith
  unfold f32
  rw [if_neg (ne_of_gt hq)]
  simp only [hlog, add_sub_cancel_right]
  rw [roundHalfEven_of_near _ m h1 h2]

theorem c_0_1f_eq : c_0_1f = 13421773 / 134217728 := by
  unfold c_0_1f
  rw [f32_eq_of_near (1 / 10) 13421773 (-27) (by norm_num) (by norm_num) (by norm_num)
    (by norm_num)]
  norm_num

theorem f32_ten : f32 10 = 10 := by
  rw [f32_eq_of_near 10 10485760 (-20) (by norm_num) (by norm_num) (by norm_num)
    (by norm_num)]
  norm_num

theorem f32_two : f32 2 = 2 := by
  rw [f32_eq_of_near 2 8388608 (-22) (by norm_num) (by norm_num) (by norm_num)
    (by norm_num)]
  norm_num

theorem mem_sortInsert {α : Type} (comp : α → α → Bool) (x z : α) (l : List α) :
    z ∈ sortInsert comp x l ↔ z = x ∨ z ∈ l := by
  induction l with
  | nil => simp [sortInsert]
  | cons y ys ih =>
    by_cases h : comp x y = true
    · simp [sortInsert, h]
    · simp only [sortInsert, h, Bool.false_eq_true, if_false, List.mem_cons, ih]
      tauto

theorem pairwise_sortInsert {α : Type} (key : α → ℚ) (x : α) (l : List α)
    (hl : l.Pairwise (fun a b => key b ≤ key a)) :
    (sortInsert (fun a b => decide (key a > key b)) x l).Pairwise
      (fun a b => key b ≤ key a) := by
  induction l with
  | nil => simp [sortInsert]
  | cons y ys ih =>
    rw [List.pairwise_cons] at hl
    by_cases h : key x > key y
    · simp only [sortInsert, h, decide_True, if_true]
      rw [List.pairwise_cons, List.pairwise_cons]
      refine ⟨?_, hl.1, hl.2⟩
      intro z hz
      rcases List.mem_cons.1 hz with rfl | hz
      · exact le_of_lt h
      · exact le_trans (hl.1 z hz) (le_of_lt h)
    · simp only [sortInsert, h, decide_False, Bool.false_eq_true, if_false]
      rw [List.pairwise_cons]
      refine ⟨?_, ih hl.2⟩
      intro z hz
      rcases (mem_sortInsert _ x z ys).1 hz with rfl | hz
      · exact not_lt.1 h
      · exact hl.1 z hz

theorem pairwise_foldl_sortInsert {α : Type} (key : α → ℚ) (l acc : List α)
    (hacc : acc.Pairwise (fun a b => key b ≤ key a)) :
    (l.foldl (fun acc x => sortInsert (fun a b => decide (key a > key b)) x acc) acc).Pairwise
      (fun a b => key b ≤ key a) := by
  induction l generalizing acc with
  | nil => exact hacc
  | cons x xs ih => exact ih _ (pairwise_sortInsert key x acc hacc)

theorem pairwise_std_sort {α : Type} (key : α → ℚ) (l : List α) :
    (std_sort (fun a b => decide (key a > key b)) l).Pairwise (fun a b => key b ≤ key a) :=
  pairwise_foldl_sortInsert key l [] List.Pairwise.nil

/-! ## adaptive_scheduler: order of the decisions -/

/-- C6 fails on the code in its tie-break: two registered processes that were never
updated both have importance 1, and the returned list keeps them in the iteration order
of the metrics map. Registered as 1 then 2 they come out as 1, 2; registered as 2 then 1
they come out with pid 2 before pid 1, against ascending `process_id`. -/
theorem calculateProcessPriorities_ties_not_by_pid :
    (((AdaptiveScheduler.init.registerProcess 1 "a").registerProcess 2
      "b").calculateProcessPriorities 0).map
        (fun d => (d.process_id, d.importance_factor)) = [(1, 1), (2, 1)] ∧
    (((AdaptiveScheduler.init.registerProcess 2 "b").registerProcess 1
      "a").calculateProcessPriorities 0).map
        (fun d => (d.process_id, d.importance_factor)) = [(2, 1), (1, 1)] ∧
    ¬ ((((AdaptiveScheduler.init.registerProcess 2 "b").registerProcess 1
      "a").calculateProcessPriorities 0).Pairwise
        (fun a b => a.importance_factor = b.importance_factor →
          a.process_id < b.process_id)) := by
  have h : (((AdaptiveScheduler.init.registerProcess 2 "b").registerProcess 1
      "a").calculateProcessPriorities 0).map
        (fun d => (d.process_id, d.importance_factor)) = [(2, 1), (1, 1)] := by
    simp [AdaptiveScheduler.calculateProcessPriorities, AdaptiveScheduler.registerProcess,
      AdaptiveScheduler.init, UMap.assign, std_sort, sortInsert,
      AdaptiveScheduler.importanceGreater, AdaptiveScheduler.decide_for, ML.predict,
      AdaptiveScheduler.getSystemPerformanceFactor, f32_add, f32_mul, f32_zero, f32_one]
  refine ⟨?_, h, ?_⟩
  · simp [AdaptiveScheduler.calculateProcessPriorities, AdaptiveScheduler.registerProcess,
      AdaptiveScheduler.init, UMap.assign, std_sort, sortInsert,
      AdaptiveScheduler.importanceGreater, AdaptiveScheduler.decide_for, ML.predict,
      AdaptiveScheduler.getSystemPerformanceFactor, f32_add, f32_mul, f32_zero, f32_one]
  intro hp
  have hp2 : ((((AdaptiveScheduler.init.registerProcess 2 "b").registerProcess 1
      "a").calculateProcessPriorities 0).map
        (fun d => (d.process_id, d.importance_factor))).Pairwise
          (fun (p q : pid_t × ℚ) => p.2 = q.2 → p.1 < q.1) :=
    List.pairwise_map.2 hp
  rw [h] at hp2
  simp at hp2

/-- C6, amended: for every scheduler state and clock reading, the list returned by
`calculateProcessPriorities` is sorted by `importance_factor` in descending order: of any
two decisions, the one that comes first has an `importance_factor` at least as large. -/
theorem calculateProcessPriorities_sorted_by_importance (s : AdaptiveScheduler) (now : Int) :
    (s.calculateProcessPriorities now).Pairwise
      (fun a b => b.importance_factor ≤ a.importance_factor) :=
  pairwise_std_sort SchedulingDecision.importance_factor _

/-! ## adaptive_scheduler: usage metrics and dependency edges -/

namespace AdaptiveScheduler

theorem updateUsageMetrics_processMetrics (s : AdaptiveScheduler) (pid : pid_t)
    (event : ApplicationEvent) (cpuUsage ioUsage now : Int) :
    (s.updateUsageMetrics pid event cpuUsage ioUsage now).processMetrics =
      UMap.assign s.processMetrics pid
        { UMap.valueAt s.processMetrics pid {} with
          lastInteractionTime := now,
          interactionCount := (UMap.valueAt s.processMetrics pid {}).interactionCount + 1,
          cpuUsage := cpuUsage,
          ioUsage := ioUsage } := by
  unfold updateUsageMetrics
  simp only
  split <;> rfl

theorem updateUsageMetrics_dependencies (s : AdaptiveScheduler) (pid : pid_t)
    (event : ApplicationEvent) (cpuUsage ioUsage now : Int) :
    (s.updateUsageMetrics pid event cpuUsage ioUsage now).dependencies =
      if event.type = ApplicationEventType.FOCUS_CHANGE then
        UMap.assign s.dependencies pid
          (UMap.valueAt s.dependencies pid [] ++ [event.previous_pid])
      else s.dependencies := by
  unfold updateUsageMetrics
  simp only
  split <;> rfl

end AdaptiveScheduler

/-- C7: for a registered pid with metrics `m`, `updateUsageMetrics` stores for that pid
`m` with `interactionCount` raised by exactly 1, `cpuUsage` and `ioUsage` set to the
arguments and `lastInteractionTime` set to the clock reading; the metrics of every other
pid are unchanged; and a second call under a clock reading that is not smaller leaves a
`lastInteractionTime` that is not smaller (and a count raised by 2). -/
theorem updateUsageMetrics_effect (s : AdaptiveScheduler) (pid : pid_t)
    (event : ApplicationEvent) (cpuUsage ioUsage now : Int) (m : UsageMetrics)
    (hreg : UMap.find s.processMetrics pid = some m) :
    UMap.find (s.updateUsageMetrics pid event cpuUsage ioUsage now).processMetrics pid =
      some { m with
        lastInteractionTime := now,
        interactionCount := m.interactionCount + 1,
        cpuUsage := cpuUsage,
        ioUsage := ioUsage } ∧
    (∀ q : pid_t, q ≠ pid →
      UMap.find (s.updateUsageMetrics pid event cpuUsage ioUsage now).processMetrics q =
        UMap.find s.processMetrics q) ∧
    (∀ (event2 : ApplicationEvent) (cpu2 io2 now2 : Int), now ≤ now2 →
      ∃ m1 m2,
        UMap.find (s.updateUsageMetrics pid event cpuUsage ioUsage now).processMetrics pid =
          some m1 ∧
        UMap.find ((s.updateUsageMetrics pid event cpuUsage ioUsage
          now).updateUsageMetrics pid event2 cpu2 io2 now2).processMetrics pid = some m2 ∧
        m1.lastInteractionTime ≤ m2.lastInteractionTime ∧
        m2.interactionCount = m1.interactionCount + 1) := by
  have hval : UMap.valueAt s.processMetrics pid {} = m := by
    simp [UMap.valueAt, hreg]
  have h1 : UMap.find (s.updateUsageMetrics pid event cpuUsage ioUsage now).processMetrics
      pid = some { m with
        lastInteractionTime := now,
        interactionCount := m.interactionCount + 1,
        cpuUsage := cpuUsage,
        ioUsage := ioUsage } := by
    rw [AdaptiveScheduler.updateUsageMetrics_processMetrics, UMap.find_assign_same, hval]
  refine ⟨h1, ?_, ?_⟩
  · intro q hq
    rw [AdaptiveScheduler.updateUsageMetrics_processMetrics,
      UMap.find_assign_other _ _ _ _ hq]
  · intro event2 cpu2 io2 now2 hle
    have h2 : UMap.find ((s.updateUsageMetrics pid event cpuUsage ioUsage
        now).updateUsageMetrics pid event2 cpu2 io2 now2).processMetrics pid =
        some { m with
          lastInteractionTime := now2,
          interactionCount := m.interactionCount + 1 + 1,
          cpuUsage := cpu2,
          ioUsage := io2 } := by
      rw [AdaptiveScheduler.updateUsageMetrics_processMetrics, UMap.find_assign_same]
      simp only [UMap.valueAt, h1, Option.getD_some]
    exact ⟨_, _, h1, h2, hle, rfl⟩

/-- C7 at a concrete state: pid 3 registered, then updated with cpu 40 and io 7 at
time 1000. -/
theorem updateUsageMetrics_effect_witness :
    UMap.find ((AdaptiveScheduler.init.registerProcess 3 "p").updateUsageMetrics 3
      { type := ApplicationEventType.OTHER, previous_pid := 0 } 40 7 1000).processMetrics 3 =
      some { lastInteractionTime := 1000, interactionCount := 0 + 1, burstCount := 0,
             cpuUsage := 40, ioUsage := 7 } :=
  (updateUsageMetrics_effect (AdaptiveScheduler.init.registerProcess 3 "p") 3
    { type := ApplicationEventType.OTHER, previous_pid := 0 } 40 7 1000 {} rfl).1

namespace AdaptiveScheduler

/-- The score formula at zero edges is `1.0f`. -/
theorem dependency_score_at_zero : f32_add 1 (f32_mul c_0_1f (f32 ((0 : Nat) : ℚ))) = 1 := by
  simp [f32_add, f32_mul, f32_zero, f32_one]

/-- The score is the formula applied to the number of recorded edges. -/
theorem getDependencyScore_eq (s : AdaptiveScheduler) (pid : pid_t) :
    s.getDependencyScore pid =
      f32_add 1 (f32_mul c_0_1f
        (f32 (((UMap.valueAt s.dependencies pid []).length : Nat) : ℚ))) := by
  unfold getDependencyScore UMap.valueAt
  cases h : UMap.find s.dependencies pid with
  | none => simpa using dependency_score_at_zero.symm
  | some deps => simp

theorem edges_after_update (s : AdaptiveScheduler) (c : UpdateCall) (q : pid_t) :
    (UMap.valueAt (s.updateUsageMetrics c.pid c.event c.cpuUsage c.ioUsage
        c.now).dependencies q []).length =
      (UMap.valueAt s.dependencies q []).length +
        (if UpdateCall.isFocusChangeOn q c = true then 1 else 0) := by
  rw [updateUsageMetrics_dependencies]
  by_cases hf : c.event.type = ApplicationEventType.FOCUS_CHANGE
  · by_cases hp : c.pid = q
    · subst hp
      simp [UpdateCall.isFocusChangeOn, hf, UMap.valueAt, UMap.find_assign_same]
    · have hq : q ≠ c.pid := fun e => hp e.symm
      simp [UpdateCall.isFocusChangeOn, hf, hp, UMap.valueAt,
        UMap.find_assign_other _ _ _ _ hq]
  · simp [UpdateCall.isFocusChangeOn, hf]

theorem edges_after_run (calls : List UpdateCall) (s : AdaptiveScheduler) (q : pid_t) :
    (UMap.valueAt (UpdateCall.run s calls).dependencies q []).length =
      (UMap.valueAt s.dependencies q []).length +
        calls.countP (UpdateCall.isFocusChangeOn q) := by
  induction calls generalizing s with
  | nil => simp [UpdateCall.run]
  | cons c calls ih =>
    have hrun : UpdateCall.run s (c :: calls) =
        UpdateCall.run (s.updateUsageMetrics c.pid c.event c.cpuUsage c.ioUsage c.now)
          calls := rfl
    rw [hrun, ih, edges_after_update, List.countP_cons]
    omega

end AdaptiveScheduler

/-- C8: starting from a state with no recorded edge into `pid`, after a sequence of
`updateUsageMetrics` calls of which exactly N are FOCUS_CHANGE calls on `pid`,
`getDependencyScore(pid)` is the value of `1.0f + 0.1f * N`; a pid with no recorded edge
scores exactly 1; and a call with an OTHER event changes the score of no pid. -/
theorem getDependencyScore_counts_focus_changes (s : AdaptiveScheduler) (pid : pid_t)
    (calls : List UpdateCall) (hno : UMap.valueAt s.dependencies pid [] = []) :
    (UpdateCall.run s calls).getDependencyScore pid =
      f32_add 1 (f32_mul c_0_1f
        (f32 ((calls.countP (UpdateCall.isFocusChangeOn pid) : Nat) : ℚ))) ∧
    s.getDependencyScore pid = 1 ∧
    (∀ (st : AdaptiveScheduler) (p q : pid_t) (event : ApplicationEvent)
      (cpuUsage ioUsage now : Int), event.type = ApplicationEventType.OTHER →
      (st.updateUsageMetrics p event cpuUsage ioUsage now).getDependencyScore q =
        st.getDependencyScore q) := by
  refine ⟨?_, ?_, ?_⟩
  · rw [AdaptiveScheduler.getDependencyScore_eq, AdaptiveScheduler.edges_after_run, hno]
    simp
  · rw [AdaptiveScheduler.getDependencyScore_eq, hno]
    exact AdaptiveScheduler.dependency_score_at_zero
  · intro st p q event cpuUsage ioUsage now hother
    unfold AdaptiveScheduler.getDependencyScore
    rw [AdaptiveScheduler.updateUsageMetrics_dependencies]
    simp [hother]

/-- C8 at a concrete run: from the freshly constructed scheduler, two FOCUS_CHANGE calls
and one OTHER call on pid 2, and one FOCUS_CHANGE call on pid 9, give pid 2 the score
`1.0f + 0.1f * 2`, the binary32 value 5033165 / 4194304 (about 1.2000000477). -/
theorem getDependencyScore_counts_focus_changes_witness :
    UMap.valueAt AdaptiveScheduler.init.dependencies 2 [] = [] ∧
    (UpdateCall.run AdaptiveScheduler.init
      [ { pid := 2, event := { type := ApplicationEventType.FOCUS_CHANGE, previous_pid := 1 },
          cpuUsage := 10, ioUsage := 5, now := 100 },
        { pid := 2, event := { type := ApplicationEventType.OTHER, previous_pid := 0 },
          cpuUsage := 11, ioUsage := 6, now := 101 },
        { pid := 9, event := { type := ApplicationEventType.FOCUS_CHANGE, previous_pid := 2 },
          cpuUsage := 12, ioUsage := 7, now := 102 },
        { pid := 2, event := { type := ApplicationEventType.FOCUS_CHANGE, previous_pid := 9 },
          cpuUsage := 13, ioUsage := 8, now := 103 } ]).getDependencyScore 2 =
      f32_add 1 (f32_mul c_0_1f (f32 ((2 : Nat) : ℚ))) ∧
    f32_add 1 (f32_mul c_0_1f (f32 ((2 : Nat) : ℚ))) = 5033165 / 4194304 := by
  refine ⟨rfl, (getDependencyScore_counts_focus_changes AdaptiveScheduler.init 2 _ rfl).1, ?_⟩
  have h2 : f32 ((2 : Nat) : ℚ) = 2 := by
    rw [show (((2 : Nat) : ℚ)) = 2 by norm_num]
    exact f32_two
  have hm : f32 (13421773 / 134217728 * 2) = 13421773 / 67108864 := by
    rw [f32_eq_of_near (13421773 / 134217728 * 2) 13421773 (-26) (by norm_num) (by norm_num)
      (by norm_num) (by norm_num)]
    norm_num
  have hs : f32 (1 + 13421773 / 67108864) = 5033165 / 4194304 := by
    rw [f32_eq_of_near (1 + 13421773 / 67108864) 10066330 (-23) (by norm_num) (by norm_num)
      (by norm_num) (by norm_num)]
    norm_num
  rw [f32_add, f32_mul, h2, c_0_1f_eq, hm, hs]

/-! ## Operations on an unregistered pid -/

/-- C9 fails on the code: in each manager, registering pid 7, unregistering it and then
calling a per-pid operation on it leaves pid 7 in a per-process map again; no operation
has an error result. `getAllPIDs` lists pid 7 after `updateUsageMetrics`, after
`predictMemoryNeeds` and after `allocateSecureMemory`; after `allocateMemoryByTier` pid 7
has a tracked total again. -/
theorem unregistered_pid_is_recreated :
    ((AdaptiveScheduler.init.registerProcess 7 "p").unregisterProcess 7).getAllPIDs = [] ∧
    (((AdaptiveScheduler.init.registerProcess 7 "p").unregisterProcess 7).updateUsageMetrics 7
      { type := ApplicationEventType.OTHER, previous_pid := 0 } 0 0 5).getAllPIDs = [7] ∧
    ((AdaptiveMemoryManager.init.registerProcess 7).unregisterProcess 7).getAllPIDs = [] ∧
    ((((AdaptiveMemoryManager.init.registerProcess 7).unregisterProcess 7).predictMemoryNeeds
      7 100).1).getAllPIDs = [7] ∧
    ((AdaptiveMemoryManager.init.registerProcess 7).unregisterProcess 7).processMemoryUsage
      = [] ∧
    (((AdaptiveMemoryManager.init.registerProcess 7).unregisterProcess 7).allocateMemoryByTier
      7 100 SecurityLevel.LOW 5).processMemoryUsage = [(7, 100)] ∧
    ((SecurityMemoryManager.init.registerProcess 7).unregisterProcess 7).getAllPIDs = [] ∧
    ((((SecurityMemoryManager.init.registerProcess 7).unregisterProcess 7).allocateSecureMemory
      7 16 SecurityLevel.LOW 4096 8192).1).getAllPIDs = [7] := by
  decide

/-- C9, amended: after `unregisterProcess(pid)` a per-pid operation on `pid` creates the
entry of `pid` again from its default and applies itself to it. `updateUsageMetrics`
leaves metrics with `interactionCount` 1 and the supplied values; `predictMemoryNeeds`
leaves the prediction `currentUsage / 10 + 1024` and the tracked total `currentUsage`;
`allocateSecureMemory` leaves a profile with `trustScore` 100; after each of these
`getAllPIDs` lists `pid`. `allocateMemoryByTier` (three tiers) leaves the tracked total
`size mod 2^64` and no prediction, so `getAllPIDs` of the memory manager does not list
`pid`. -/
theorem operations_after_unregister_recreate_entry (sched : AdaptiveScheduler)
    (mem : AdaptiveMemoryManager) (sec : SecurityMemoryManager) (pid : pid_t)
    (event : ApplicationEvent) (cpuUsage ioUsage now : Int) (currentUsage size : Nat)
    (secLevel : SecurityLevel) (addr enclaveAddr : Nat)
    (h3 : mem.memoryTiers.length = 3) :
    (UMap.find ((sched.unregisterProcess pid).updateUsageMetrics pid event cpuUsage ioUsage
        now).processMetrics pid =
      some { lastInteractionTime := now, interactionCount := 1, burstCount := 0,
             cpuUsage := cpuUsage, ioUsage := ioUsage } ∧
     pid ∈ ((sched.unregisterProcess pid).updateUsageMetrics pid event cpuUsage ioUsage
        now).getAllPIDs) ∧
    (UMap.find ((mem.unregisterProcess pid).predictMemoryNeeds pid
        currentUsage).1.processMemoryNeeds pid =
      some { expectedGrowth := (currentUsage / 10 + 1024) % SIZE_MOD } ∧
     UMap.find ((mem.unregisterProcess pid).predictMemoryNeeds pid
        currentUsage).1.processMemoryUsage pid = some currentUsage ∧
     pid ∈ ((mem.unregisterProcess pid).predictMemoryNeeds pid currentUsage).1.getAllPIDs) ∧
    (UMap.find ((mem.unregisterProcess pid).allocateMemoryByTier pid size secLevel
        now).processMemoryUsage pid = some (size % SIZE_MOD) ∧
     UMap.find ((mem.unregisterProcess pid).allocateMemoryByTier pid size secLevel
        now).processMemoryNeeds pid = none ∧
     pid ∉ ((mem.unregisterProcess pid).allocateMemoryByTier pid size secLevel
        now).getAllPIDs) ∧
    (UMap.find ((sec.unregisterProcess pid).allocateSecureMemory pid size secLevel addr
        enclaveAddr).1.processSecurityProfiles pid = some { trustScore := 100 } ∧
     pid ∈ ((sec.unregisterProcess pid).allocateSecureMemory pid size secLevel addr
        enclaveAddr).1.getAllPIDs) := by
  refine ⟨?_, ?_, ?_, ?_⟩
  · have h : UMap.find ((sched.unregisterProcess pid).updateUsageMetrics pid event cpuUsage
        ioUsage now).processMetrics pid =
        some { lastInteractionTime := now, interactionCount := 1, burstCount := 0,
               cpuUsage := cpuUsage, ioUsage := ioUsage } := by
      rw [AdaptiveScheduler.updateUsageMetrics_processMetrics, UMap.find_assign_same]
      simp [UMap.valueAt, AdaptiveScheduler.unregisterProcess, UMap.find_erase_same]
    refine ⟨h, ?_⟩
    rw [AdaptiveScheduler.getAllPIDs, UMap.mem_keys_iff_find, h]
    rfl
  · have hn : UMap.find ((mem.unregisterProcess pid).predictMemoryNeeds pid
        currentUsage).1.processMemoryNeeds pid =
        some { expectedGrowth := (currentUsage / 10 + 1024) % SIZE_MOD } := by
      unfold AdaptiveMemoryManager.predictMemoryNeeds
      simp only
      split <;> simp [UMap.find_assign_same, MemoryPrediction.update, size_add]
    have hu : UMap.find ((mem.unregisterProcess pid).predictMemoryNeeds pid
        currentUsage).1.processMemoryUsage pid = some currentUsage := by
      unfold AdaptiveMemoryManager.predictMemoryNeeds
      simp only
      split <;> simp [UMap.find_assign_same]
    refine ⟨hn, hu, ?_⟩
    rw [AdaptiveMemoryManager.getAllPIDs, UMap.mem_keys_iff_find, hn]
    rfl
  · have h3u : (mem.unregisterProcess pid).memoryTiers.length = 3 := h3
    have hn : UMap.find ((mem.unregisterProcess pid).allocateMemoryByTier pid size secLevel
        now).processMemoryNeeds pid = none := by
      rw [AdaptiveMemoryManager.allocateMemoryByTier_needs]
      exact UMap.find_erase_same _ _
    refine ⟨?_, hn, ?_⟩
    · rw [AdaptiveMemoryManager.allocateMemoryByTier_usage _ pid size secLevel now h3u,
        UMap.find_assign_same]
      simp [UMap.valueAt, AdaptiveMemoryManager.unregisterProcess, UMap.find_erase_same,
        size_add]
    · rw [AdaptiveMemoryManager.getAllPIDs, UMap.mem_keys_iff_find, hn]
      simp
  · have h : UMap.find ((sec.unregisterProcess pid).allocateSecureMemory pid size secLevel
        addr enclaveAddr).1.processSecurityProfiles pid = some { trustScore := 100 } := by
      simp [SecurityMemoryManager.allocateSecureMemory, UMap.touch, UMap.find_assign_same,
        UMap.valueAt, SecurityMemoryManager.unregisterProcess, UMap.find_erase_same]
    refine ⟨h, ?_⟩
    rw [SecurityMemoryManager.getAllPIDs, UMap.mem_keys_iff_find, h]
    rfl

/-- C9, amended, at pid 7 in the three freshly constructed managers. -/
theorem operations_after_unregister_recreate_entry_witness :
    AdaptiveMemoryManager.init.memoryTiers.length = 3 ∧
    (7 : pid_t) ∈ ((AdaptiveScheduler.init.unregisterProcess 7).updateUsageMetrics 7
      { type := ApplicationEventType.OTHER, previous_pid := 0 } 30 4 1000).getAllPIDs ∧
    (7 : pid_t) ∈ ((SecurityMemoryManager.init.unregisterProcess 7).allocateSecureMemory 7 16
      SecurityLevel.LOW 4096 8192).1.getAllPIDs :=
  have h := operations_after_unregister_recreate_entry AdaptiveScheduler.init
    AdaptiveMemoryManager.init SecurityMemoryManager.init 7
    { type := ApplicationEventType.OTHER, previous_pid := 0 } 30 4 1000 100 16
    SecurityLevel.LOW 4096 8192 rfl
  ⟨rfl, h.1.2, h.2.2.2.2⟩

/-! ## security_memory_manager: trust score under anomaly processing -/

namespace SecurityMemoryManager

end SecurityMemoryManager

/-- The loop of `monitorMemoryAccess` has no floor and no sign check of its own: run on
two anomalies of severity 80 for pid 1 at trust score 100 it leaves the score at -60, and
run on one anomaly of severity -5 it leaves it at 105. The detector of the repository
delivers neither list. -/
theorem monitorLoop_has_no_floor :
    UMap.find (SecurityMemoryManager.init.registerProcess 1).processSecurityProfiles 1 =
      some { trustScore := 100 } ∧
    UMap.find ((SecurityMemoryManager.init.registerProcess 1).monitorMemoryAccess
      [{ pid := 1, severity := 80 }, { pid := 1, severity := 80 }]).processSecurityProfiles 1 =
      some { trustScore := -60 } ∧
    UMap.find ((SecurityMemoryManager.init.registerProcess 1).monitorMemoryAccess
      [{ pid := 1, severity := -5 }]).processSecurityProfiles 1 =
      some { trustScore := 105 } := by
  decide

/-- C11 fails on the code: pid 3 is registered and updated once (count 1, cpu 40, io 7,
time 1000); a second `registerProcess(3, "q")` leaves its metrics at all zeros. -/
theorem registerProcess_resets_metrics :
    UMap.find ((AdaptiveScheduler.init.registerProcess 3 "p").updateUsageMetrics 3
      { type := ApplicationEventType.OTHER, previous_pid := 0 } 40 7 1000).processMetrics 3 =
      some { lastInteractionTime := 1000, interactionCount := 1, burstCount := 0,
             cpuUsage := 40, ioUsage := 7 } ∧
    UMap.find (((AdaptiveScheduler.init.registerProcess 3 "p").updateUsageMetrics 3
      { type := ApplicationEventType.OTHER, previous_pid := 0 } 40 7
        1000).registerProcess 3 "q").processMetrics 3 =
      some { lastInteractionTime := 0, interactionCount := 0, burstCount := 0,
             cpuUsage := 0, ioUsage := 0 } := by
  decide

/-- C11, amended: for every scheduler state and every pid, registered or not,
`registerProcess(pid, name)` stores default metrics (every field 0) and the profile
(pid, name) for `pid`, whatever was stored before; the metrics and profiles of every
other pid and all dependency lists are unchanged. -/
theorem registerProcess_overwrites (s : AdaptiveScheduler) (pid : pid_t) (name : String) :
    UMap.find (s.registerProcess pid name).processMetrics pid =
      some { lastInteractionTime := 0, interactionCount := 0, burstCount := 0,
             cpuUsage := 0, ioUsage := 0 } ∧
    UMap.find (s.registerProcess pid name).userProfiles pid =
      some { pid := pid, name := name } ∧
    (∀ q : pid_t, q ≠ pid →
      UMap.find (s.registerProcess pid name).processMetrics q = UMap.find s.processMetrics q ∧
      UMap.find (s.registerProcess pid name).userProfiles q = UMap.find s.userProfiles q) ∧
    (s.registerProcess pid name).dependencies = s.dependencies := by
  refine ⟨UMap.find_assign_same _ _ _, UMap.find_assign_same _ _ _, ?_, rfl⟩
  intro q hq
  exact ⟨UMap.find_assign_other _ _ _ _ hq, UMap.find_assign_other _ _ _ _ hq⟩

/-! ## security_memory_manager: the returned region -/

/-- C13: for every state (hence every current trust score), pid, size, requested level
and allocator results, the region returned by `allocateSecureMemory` has the requested
size and the requested security level; and for pid 5 registered at trust score 100 a
HIGH request of 1024 bytes resolves to HARDWARE_ISOLATED and returns a region of size
1024. -/
theorem allocateSecureMemory_region (s : SecurityMemoryManager) (pid : pid_t) (size : Nat)
    (reqLevel : SecurityLevel) (addr enclaveAddr : Nat) :
    ((s.allocateSecureMemory pid size reqLevel addr enclaveAddr).2.size = size ∧
      (s.allocateSecureMemory pid size reqLevel addr enclaveAddr).2.secLevel = reqLevel) ∧
    (SecurityMemoryManager.determineProtectionLevel SecurityLevel.HIGH
        (UMap.valueAt (SecurityMemoryManager.init.registerProcess 5).processSecurityProfiles
          5 {}).trustScore = SecurityMemoryManager.MemoryProtectionLevel.HARDWARE_ISOLATED ∧
      ((SecurityMemoryManager.init.registerProcess 5).allocateSecureMemory 5 1024
        SecurityLevel.HIGH addr enclaveAddr).2.size = 1024) := by
  refine ⟨?_, by decide, rfl⟩
  unfold SecurityMemoryManager.allocateSecureMemory
  simp only
  cases reqLevel <;>
    by_cases h : (UMap.valueAt s.processSecurityProfiles pid {}).trustScore < 50 <;>
    simp [SecurityMemoryManager.determineProtectionLevel, h,
      SecurityMemoryManager.applyMemoryEncryption,
      SecurityMemoryManager.applyAccessPatternObfuscation,
      SecurityMemoryManager.createHardwareSecureEnclave,
      SecurityMemoryManager.hardwareSupportsIsolation]

/-! ## security_memory_manager: effect of one anomaly and of a list -/

/-- C15: an anomaly of severity above 80 takes the breach path and leaves the state as it
is; any other anomaly (severity 80 included) takes the logging path, lowers the trust
score of its pid by its severity (starting from the default 100 when the pid had no
profile) and leaves the profile of every other pid unchanged; and `monitorMemoryAccess`
on a list is the effect of its first anomaly followed by the pass over the rest. -/
theorem monitorMemoryAccess_per_anomaly (s : SecurityMemoryManager) (a : Anomaly)
    (rest : List Anomaly) :
    (80 < a.severity →
      SecurityMemoryManager.processAnomaly s a =
        (s, SecurityMemoryManager.MonitorAction.handleSecurityBreach a)) ∧
    (a.severity ≤ 80 →
      (SecurityMemoryManager.processAnomaly s a).2 =
        SecurityMemoryManager.MonitorAction.logSuspiciousActivity a ∧
      UMap.find (SecurityMemoryManager.processAnomaly s a).1.processSecurityProfiles a.pid =
        some { trustScore :=
          (UMap.valueAt s.processSecurityProfiles a.pid {}).trustScore - a.severity } ∧
      (∀ p : SecurityProfile, UMap.find s.processSecurityProfiles a.pid = some p →
        UMap.find (SecurityMemoryManager.processAnomaly s a).1.processSecurityProfiles a.pid =
          some { trustScore := p.trustScore - a.severity }) ∧
      (∀ q : pid_t, q ≠ a.pid →
        UMap.find (SecurityMemoryManager.processAnomaly s a).1.processSecurityProfiles q =
          UMap.find s.processSecurityProfiles q)) ∧
    s.monitorMemoryAccess [] = s ∧
    s.monitorMemoryAccess (a :: rest) =
      (SecurityMemoryManager.processAnomaly s a).1.monitorMemoryAccess rest := by
  have hloop : ∀ (l : List Anomaly) (st : SecurityMemoryManager)
      (acts1 acts2 : List SecurityMemoryManager.MonitorAction),
      (SecurityMemoryManager.monitorLoop st l acts1).1 =
        (SecurityMemoryManager.monitorLoop st l acts2).1 := by
    intro l
    induction l with
    | nil => intro st acts1 acts2; rfl
    | cons b l ih =>
      intro st acts1 acts2
      simp only [SecurityMemoryManager.monitorLoop]
      exact ih _ _ _
  refine ⟨?_, ?_, rfl, ?_⟩
  · intro h
    simp [SecurityMemoryManager.processAnomaly, SecurityMemoryManager.CRITICAL_THRESHOLD, h]
  · intro h
    have hn : ¬ a.severity > SecurityMemoryManager.CRITICAL_THRESHOLD := by
      simp only [SecurityMemoryManager.CRITICAL_THRESHOLD]
      omega
    have hstate : (SecurityMemoryManager.processAnomaly s a).1.processSecurityProfiles =
        UMap.assign s.processSecurityProfiles a.pid
          { trustScore :=
            (UMap.valueAt s.processSecurityProfiles a.pid {}).trustScore - a.severity } := by
      simp [SecurityMemoryManager.processAnomaly, hn]
    refine ⟨?_, ?_, ?_, ?_⟩
    · simp [SecurityMemoryManager.processAnomaly, hn]
    · rw [hstate, UMap.find_assign_same]
    · intro p hp
      rw [hstate, UMap.find_assign_same]
      simp [UMap.valueAt, hp]
    · intro q hq
      rw [hstate, UMap.find_assign_other _ _ _ _ hq]
  · simp only [SecurityMemoryManager.monitorMemoryAccess, SecurityMemoryManager.monitorLoop]
    exact hloop _ _ _ _

/-! ## adaptive_scheduler: removal of a process -/

theorem mem_foldl_sortInsert {α : Type} (comp : α → α → Bool) (z : α) (l acc : List α) :
    z ∈ l.foldl (fun acc x => sortInsert comp x acc) acc ↔ z ∈ l ∨ z ∈ acc := by
  induction l generalizing acc with
  | nil => simp
  | cons x xs ih =>
    simp only [List.foldl_cons, ih, mem_sortInsert, List.mem_cons]
    tauto

/-- The sort neither drops nor invents an element. -/
theorem mem_std_sort {α : Type} (comp : α → α → Bool) (z : α) (l : List α) :
    z ∈ std_sort comp l ↔ z ∈ l := by
  simp [std_sort, mem_foldl_sortInsert]

theorem mem_calculateProcessPriorities (s : AdaptiveScheduler) (now : Int)
    (d : SchedulingDecision) :
    d ∈ s.calculateProcessPriorities now ↔
      ∃ kv ∈ s.processMetrics, d = AdaptiveScheduler.decide_for s now kv.1 kv.2 := by
  unfold AdaptiveScheduler.calculateProcessPriorities
  rw [mem_std_sort, List.mem_map]
  constructor
  · rintro ⟨kv, hkv, rfl⟩
    exact ⟨kv, hkv, rfl⟩
  · rintro ⟨kv, hkv, rfl⟩
    exact ⟨kv, hkv, rfl⟩

/-- C16: after `unregisterProcess(pid)` the pid has no metrics, no profile and no
dependency list; `getAllPIDs` does not contain it, `calculateProcessPriorities` returns
no decision for it and its dependency score is 1; the metrics, profiles and dependency
lists of every other pid are unchanged. -/
theorem unregisterProcess_removes_only_pid (s : AdaptiveScheduler) (pid : pid_t) (now : Int) :
    (UMap.find (s.unregisterProcess pid).processMetrics pid = none ∧
      UMap.find (s.unregisterProcess pid).userProfiles pid = none ∧
      UMap.find (s.unregisterProcess pid).dependencies pid = none) ∧
    pid ∉ (s.unregisterProcess pid).getAllPIDs ∧
    (∀ d ∈ (s.unregisterProcess pid).calculateProcessPriorities now, d.process_id ≠ pid) ∧
    (s.unregisterProcess pid).getDependencyScore pid = 1 ∧
    (∀ q : pid_t, q ≠ pid →
      UMap.find (s.unregisterProcess pid).processMetrics q = UMap.find s.processMetrics q ∧
      UMap.find (s.unregisterProcess pid).userProfiles q = UMap.find s.userProfiles q ∧
      UMap.find (s.unregisterProcess pid).dependencies q = UMap.find s.dependencies q) := by
  have hm : UMap.find (s.unregisterProcess pid).processMetrics pid = none :=
    UMap.find_erase_same _ _
  have hd : UMap.find (s.unregisterProcess pid).dependencies pid = none :=
    UMap.find_erase_same _ _
  have hkeys : pid ∉ (s.unregisterProcess pid).getAllPIDs := by
    rw [AdaptiveScheduler.getAllPIDs, UMap.mem_keys_iff_find, hm]
    simp
  refine ⟨⟨hm, UMap.find_erase_same _ _, hd⟩, hkeys, ?_, ?_, ?_⟩
  · intro d hd2 heq
    obtain ⟨kv, hkv, rfl⟩ := (mem_calculateProcessPriorities _ _ _).1 hd2
    have hk : kv.1 = pid := heq
    have hmem : kv.1 ∈ (s.unregisterProcess pid).getAllPIDs := List.mem_map_of_mem _ hkv
    rw [hk] at hmem
    exact hkeys hmem
  · simp [AdaptiveScheduler.getDependencyScore, hd]
  · intro q hq
    exact ⟨UMap.find_erase_other _ _ _ hq, UMap.find_erase_other _ _ _ hq,
      UMap.find_erase_other _ _ _ hq⟩

/-! ## security_memory_manager: access validation -/

/-- C17: `findMemoryRegion` finds no region for any address, also for the address of a
region just returned by `allocateSecureMemory`, and `validateMemoryAccess` returns true
for every state, pid, address, size and access type. The method reads the state only. -/
theorem validateMemoryAccess_always_true (s : SecurityMemoryManager) (pid : pid_t)
    (address size : Nat) (access : AccessType) (reqLevel : SecurityLevel)
    (addr enclaveAddr : Nat) :
    SecurityMemoryManager.findMemoryRegion s address = none ∧
    s.validateMemoryAccess pid address size access = true ∧
    SecurityMemoryManager.findMemoryRegion
      (s.allocateSecureMemory pid size reqLevel addr enclaveAddr).1
      (s.allocateSecureMemory pid size reqLevel addr enclaveAddr).2.address = none ∧
    (s.allocateSecureMemory pid size reqLevel addr enclaveAddr).1.validateMemoryAccess pid
      (s.allocateSecureMemory pid size reqLevel addr enclaveAddr).2.address
      (s.allocateSecureMemory pid size reqLevel addr enclaveAddr).2.size access = true :=
  ⟨rfl, rfl, rfl, rfl⟩

/-! ## adaptive_memory_manager: prediction and pre-allocation -/

namespace MemoryPrediction

/-- The projection in 64-bit arithmetic: `expectedGrowth + seconds / 60 * 256` modulo
2^64. -/
theorem project_expectedGrowth (p : MemoryPrediction) (seconds : Int) :
    ((p.project seconds).expectedGrowth : Int) =
      ((p.expectedGrowth : Int) + Int.tdiv seconds 60 * 256) % (SIZE_MOD : Int) := by
  have hpos : (0 : Int) < (SIZE_MOD : Int) := by simp [SIZE_MOD]
  simp only [project, size_add, size_of_int]
  rw [Int.natCast_mod, Int.natCast_add,
    Int.toNat_of_nonneg (Int.emod_nonneg _ (ne_of_gt hpos)), Int.add_emod_emod]

/-- The projection over five minutes adds 1280. -/
theorem project_five_minutes (p : MemoryPrediction) :
    (p.project (5 * 60)).expectedGrowth = (p.expectedGrowth + 1280) % SIZE_MOD := by
  simp only [project, size_add, size_of_int, SIZE_MOD]
  have h : ((Int.tdiv (5 * 60) 60 * 256) % ((2 ^ 64 : Nat) : Int)).toNat = 1280 := by decide
  rw [h]

end MemoryPrediction

namespace AdaptiveMemoryManager

theorem predictMemoryNeeds_state (s : AdaptiveMemoryManager) (pid : pid_t)
    (currentUsage : Nat) :
    (s.predictMemoryNeeds pid currentUsage).1 =
      { s with
        processMemoryNeeds :=
          UMap.assign s.processMemoryNeeds pid
            { expectedGrowth := (currentUsage / 10 + 1024) % SIZE_MOD },
        processMemoryUsage := UMap.assign s.processMemoryUsage pid currentUsage } := by
  unfold predictMemoryNeeds
  simp only
  split <;> rfl

theorem div_ten_add_lt (u : Nat) (hu : u < SIZE_MOD) : u / 10 + 2304 < SIZE_MOD := by
  unfold SIZE_MOD at *
  omega

end AdaptiveMemoryManager

/-- C14: for every pid and every `currentUsage` u (a 64-bit value), after
`predictMemoryNeeds(pid, u)` the stored `expectedGrowth` of the pid is exactly
`u / 10 + 1024` and its tracked total is exactly u. The five-minute projection made
during the call is a new value, `u / 10 + 1024 + (300 / 60) * 256`, and is not what is
stored; in general `project(h)` returns `expectedGrowth + (h / 60) * 256` (in 64-bit
arithmetic) without changing its receiver. -/
theorem predictMemoryNeeds_stores_prediction (s : AdaptiveMemoryManager) (pid : pid_t)
    (u : Nat) (hu : u < SIZE_MOD) :
    UMap.find (s.predictMemoryNeeds pid u).1.processMemoryNeeds pid =
      some { expectedGrowth := u / 10 + 1024 } ∧
    UMap.find (s.predictMemoryNeeds pid u).1.processMemoryUsage pid = some u ∧
    (({ expectedGrowth := u / 10 + 1024 } : MemoryPrediction).project (5 * 60)).expectedGrowth
      = u / 10 + 1024 + (300 / 60) * 256 ∧
    (∀ (p : MemoryPrediction) (h : Int),
      ((p.project h).expectedGrowth : Int) =
        ((p.expectedGrowth : Int) + Int.tdiv h 60 * 256) % (SIZE_MOD : Int)) ∧
    (∀ (p : MemoryPrediction) (h : Nat), p.expectedGrowth + h / 60 * 256 < SIZE_MOD →
      (p.project (h : Int)).expectedGrowth = p.expectedGrowth + h / 60 * 256) := by
  have hlt := AdaptiveMemoryManager.div_ten_add_lt u hu
  refine ⟨?_, ?_, ?_, MemoryPrediction.project_expectedGrowth, ?_⟩
  · rw [AdaptiveMemoryManager.predictMemoryNeeds_state]
    simp only
    rw [UMap.find_assign_same, Nat.mod_eq_of_lt (by omega)]
  · rw [AdaptiveMemoryManager.predictMemoryNeeds_state]
    simp only
    rw [UMap.find_assign_same]
  · rw [MemoryPrediction.project_five_minutes]
    simp only
    rw [Nat.mod_eq_of_lt (by omega)]
  · intro p h hlt2
    have hmod := MemoryPrediction.project_expectedGrowth p (h : Int)
    have htd : Int.tdiv (h : Int) 60 = ((h / 60 : Nat) : Int) := by
      rw [Int.tdiv_eq_ediv (by omega) (by norm_num)]
      norm_cast
    rw [htd] at hmod
    have hcast : ((p.expectedGrowth : Int) + ((h / 60 : Nat) : Int) * 256) =
        ((p.expectedGrowth + h / 60 * 256 : Nat) : Int) := by push_cast; ring
    rw [hcast, ← Int.natCast_mod, Nat.mod_eq_of_lt hlt2] at hmod
    exact_mod_cast hmod

/-- C14 at pid 4 registered in the freshly constructed manager, with usage 5000. -/
theorem predictMemoryNeeds_stores_prediction_witness :
    (5000 : Nat) < SIZE_MOD ∧
    UMap.find ((AdaptiveMemoryManager.init.registerProcess 4).predictMemoryNeeds 4
      5000).1.processMemoryNeeds 4 = some { expectedGrowth := 5000 / 10 + 1024 } ∧
    UMap.find ((AdaptiveMemoryManager.init.registerProcess 4).predictMemoryNeeds 4
      5000).1.processMemoryUsage 4 = some 5000 :=
  have h := predictMemoryNeeds_stores_prediction (AdaptiveMemoryManager.init.registerProcess 4)
    4 5000 (by decide)
  ⟨by decide, h.1, h.2.1⟩

/-- C19: for every pid and every `currentUsage` u (a 64-bit value), `predictMemoryNeeds`
calls the pre-allocation hook exactly when `u / 10 + 1024 + 5 * 256 > 4096`, that is
exactly when `u ≥ 17930`, and the amount it passes is `u / 10 + 2304`. -/
theorem predictMemoryNeeds_preallocation (s : AdaptiveMemoryManager) (pid : pid_t) (u : Nat)
    (hu : u < SIZE_MOD) :
    (s.predictMemoryNeeds pid u).2 = (if 17930 ≤ u then some (u / 10 + 2304) else none) ∧
    ((s.predictMemoryNeeds pid u).2.isSome = true ↔ u / 10 + 1024 + 5 * 256 > 4096) ∧
    ((s.predictMemoryNeeds pid u).2.isSome = true ↔ 17930 ≤ u) := by
  have hlt := AdaptiveMemoryManager.div_ten_add_lt u hu
  have hproj : ((({ expectedGrowth := size_add (u / 10) 1024 } : MemoryPrediction)).project
      (5 * 60)).expectedGrowth = u / 10 + 2304 := by
    have h1 : (u / 10 + 1024) % SIZE_MOD = u / 10 + 1024 := Nat.mod_eq_of_lt (by omega)
    rw [MemoryPrediction.project_five_minutes]
    simp only [size_add]
    rw [h1, Nat.mod_eq_of_lt (by omega)]
  have hval : (s.predictMemoryNeeds pid u).2 =
      (if 17930 ≤ u then some (u / 10 + 2304) else none) := by
    unfold AdaptiveMemoryManager.predictMemoryNeeds
    simp only [MemoryPrediction.update, hproj, AdaptiveMemoryManager.MEMORY_GROWTH_THRESHOLD]
    by_cases h : 17930 ≤ u
    · rw [if_pos (by omega), if_pos h]
    · rw [if_neg (by omega), if_neg h]
  refine ⟨hval, ?_, ?_⟩
  · rw [hval]
    by_cases h : 17930 ≤ u
    · simp only [if_pos h, Option.isSome_some, true_iff]
      omega
    · simp only [if_neg h, Option.isSome_none, Bool.false_eq_true, false_iff]
      omega
  · rw [hval]
    by_cases h : 17930 ≤ u <;> simp [h]

/-- C19 at the boundary: usage 17929 does not trigger the hook, usage 17930 triggers it
with amount 4097. -/
theorem predictMemoryNeeds_preallocation_witness :
    (AdaptiveMemoryManager.init.predictMemoryNeeds 1 17929).2 = none ∧
    (AdaptiveMemoryManager.init.predictMemoryNeeds 1 17930).2 = some 4097 :=
  ⟨(predictMemoryNeeds_preallocation AdaptiveMemoryManager.init 1 17929 (by decide)).1,
    (predictMemoryNeeds_preallocation AdaptiveMemoryManager.init 1 17930 (by decide)).1⟩

/-! ## adaptive_memory_manager: tier accounting -/

namespace MemOp

/-- One call keeps, for every tier, `availableSize + sum of region sizes` congruent to
`totalSize` modulo 2^64, with `availableSize` and `totalSize` 64-bit values. -/
theorem accounting_apply (s : AdaptiveMemoryManager) (op : MemOp)
    (hinv : ∀ t ∈ s.memoryTiers, t.availableSize < SIZE_MOD ∧ t.totalSize < SIZE_MOD ∧
      (t.availableSize + (t.allocations.map MemoryRegion.size).sum) % SIZE_MOD = t.totalSize) :
    ∀ t ∈ (apply s op).memoryTiers, t.availableSize < SIZE_MOD ∧ t.totalSize < SIZE_MOD ∧
      (t.availableSize + (t.allocations.map MemoryRegion.size).sum) % SIZE_MOD
        = t.totalSize := by
  cases op with
  | registerProcess pid => exact hinv
  | unregisterProcess pid => exact hinv
  | predictMemoryNeeds pid currentUsage =>
    simp only [apply, AdaptiveMemoryManager.predictMemoryNeeds]
    split <;> exact hinv
  | analyzeMemoryUsage =>
    simp only [apply, AdaptiveMemoryManager.analyzeMemoryUsage,
      AdaptiveMemoryManager.redistributeMemory]
    split <;> exact hinv
  | allocateMemoryByTier pid size secLevel now =>
    intro t ht
    simp only [apply, AdaptiveMemoryManager.allocateMemoryByTier] at ht
    split at ht
    · rcases mem_modifyAt _ _ _ _ ht with h | ⟨tier, htier, rfl⟩
      · exact hinv t h
      · obtain ⟨h1, h2, h3⟩ := hinv tier (List.getElem?_mem htier)
        refine ⟨?_, h2, ?_⟩
        · show size_sub tier.availableSize size < SIZE_MOD
          exact Nat.mod_lt _ (by simp [SIZE_MOD])
        · simp only [List.map_append, List.sum_append, List.map_cons, List.map_nil,
            List.sum_cons, List.sum_nil, add_zero]
          generalize (tier.allocations.map MemoryRegion.size).sum = sz at h3 ⊢
          unfold size_sub SIZE_MOD at *
          omega
    · exact hinv t ht

theorem accounting_run (ops : List MemOp) (s : AdaptiveMemoryManager)
    (hinv : ∀ t ∈ s.memoryTiers, t.availableSize < SIZE_MOD ∧ t.totalSize < SIZE_MOD ∧
      (t.availableSize + (t.allocations.map MemoryRegion.size).sum) % SIZE_MOD = t.totalSize) :
    ∀ t ∈ (run s ops).memoryTiers, t.availableSize < SIZE_MOD ∧ t.totalSize < SIZE_MOD ∧
      (t.availableSize + (t.allocations.map MemoryRegion.size).sum) % SIZE_MOD
        = t.totalSize := by
  induction ops generalizing s with
  | nil => exact hinv
  | cons op ops ih => exact ih (apply s op) (accounting_apply s op hinv)

/-- One call only appends region records: each tier keeps its position, its `totalSize`
and its earlier records in their order. -/
theorem allocations_extend_apply (s : AdaptiveMemoryManager) (op : MemOp) (i : Nat)
    (t1 : MemoryTier) (h1 : s.memoryTiers[i]? = some t1) :
    ∃ t2 extra, (apply s op).memoryTiers[i]? = some t2 ∧
      t2.allocations = t1.allocations ++ extra ∧ t2.totalSize = t1.totalSize := by
  cases op with
  | registerProcess pid => exact ⟨t1, [], h1, by simp, rfl⟩
  | unregisterProcess pid => exact ⟨t1, [], h1, by simp, rfl⟩
  | predictMemoryNeeds pid currentUsage =>
    refine ⟨t1, [], ?_, by simp, rfl⟩
    simp only [apply, AdaptiveMemoryManager.predictMemoryNeeds]
    split <;> exact h1
  | analyzeMemoryUsage =>
    refine ⟨t1, [], ?_, by simp, rfl⟩
    simp only [apply, AdaptiveMemoryManager.analyzeMemoryUsage,
      AdaptiveMemoryManager.redistributeMemory]
    split <;> exact h1
  | allocateMemoryByTier pid size secLevel now =>
    simp only [apply, AdaptiveMemoryManager.allocateMemoryByTier]
    split
    · by_cases hi : i = (AdaptiveMemoryManager.selectAppropriateMemoryTier pid secLevel).toNat
      · refine ⟨MemoryTier.mk t1.totalSize (size_sub t1.availableSize size) t1.accessSpeed
          (t1.allocations ++ [MemoryRegion.mk pid size now secLevel 0]),
          [MemoryRegion.mk pid size now secLevel 0], ?_, rfl, rfl⟩
        simp only
        rw [← hi, getElem?_modifyAt_same, h1]
        rfl
      · refine ⟨t1, [], ?_, by simp, rfl⟩
        simp only
        rw [getElem?_modifyAt_other _ _ _ _ hi, h1]
    · exact ⟨t1, [], h1, by simp, rfl⟩

theorem allocations_extend_run (ops : List MemOp) (s : AdaptiveMemoryManager) (i : Nat)
    (t1 : MemoryTier) (h1 : s.memoryTiers[i]? = some t1) :
    ∃ t2 extra, (run s ops).memoryTiers[i]? = some t2 ∧
      t2.allocations = t1.allocations ++ extra ∧ t2.totalSize = t1.totalSize := by
  induction ops generalizing s t1 with
  | nil => exact ⟨t1, [], h1, by simp, rfl⟩
  | cons op ops ih =>
    obtain ⟨t2, e2, h2, ha2, ht2⟩ := allocations_extend_apply s op i t1 h1
    obtain ⟨t3, e3, h3, ha3, ht3⟩ := ih (apply s op) t2 h2
    refine ⟨t3, e2 ++ e3, h3, ?_, ?_⟩
    · rw [ha3, ha2, List.append_assoc]
    · rw [ht3, ht2]

end MemOp

theorem accounting_init :
    ∀ t ∈ AdaptiveMemoryManager.init.memoryTiers,
      t.availableSize < SIZE_MOD ∧ t.totalSize < SIZE_MOD ∧
      (t.availableSize + (t.allocations.map MemoryRegion.size).sum) % SIZE_MOD
        = t.totalSize := by
  intro t ht
  simp only [AdaptiveMemoryManager.init, List.mem_cons, List.mem_singleton,
    List.not_mem_nil, or_false] at ht
  rcases ht with rfl | rfl | rfl <;> simp [SIZE_MOD]

/-- C20: in every state reached from the freshly constructed manager by a sequence of
public operations, every tier has `totalSize - availableSize` equal to the sum of the
sizes of its region records in 64-bit unsigned arithmetic (modulo 2^64); and further
operations never remove or reorder region records: each tier keeps its place and its
allocation list only grows at the end. -/
theorem tier_accounting_invariant (ops : List MemOp) :
    (∀ t ∈ (MemOp.run AdaptiveMemoryManager.init ops).memoryTiers,
      size_sub t.totalSize t.availableSize =
        (t.allocations.map MemoryRegion.size).sum % SIZE_MOD) ∧
    (∀ (more : List MemOp) (i : Nat) (t1 : MemoryTier),
      (MemOp.run AdaptiveMemoryManager.init ops).memoryTiers[i]? = some t1 →
      ∃ t2 extra, (MemOp.run AdaptiveMemoryManager.init (ops ++ more)).memoryTiers[i]?
          = some t2 ∧
        t2.allocations = t1.allocations ++ extra) := by
  constructor
  · intro t ht
    obtain ⟨h1, h2, h3⟩ := MemOp.accounting_run ops AdaptiveMemoryManager.init
      accounting_init t ht
    generalize (t.allocations.map MemoryRegion.size).sum = sz at h3 ⊢
    unfold size_sub SIZE_MOD at *
    omega
  · intro more i t1 h1
    have hrun : MemOp.run AdaptiveMemoryManager.init (ops ++ more) =
        MemOp.run (MemOp.run AdaptiveMemoryManager.init ops) more := by
      simp [MemOp.run, List.foldl_append]
    obtain ⟨t2, extra, h2, ha, _⟩ :=
      MemOp.allocations_extend_run more (MemOp.run AdaptiveMemoryManager.init ops) i t1 h1
    exact ⟨t2, extra, by rw [hrun]; exact h2, ha⟩

/-! ## adaptive_memory_manager: the total capacity never changes -/

theorem map_totalSize_modifyAt (f : MemoryTier → MemoryTier)
    (hf : ∀ t, (f t).totalSize = t.totalSize) (l : List MemoryTier) (n : Nat) :
    (modifyAt f l n).map MemoryTier.totalSize = l.map MemoryTier.totalSize := by
  induction l generalizing n with
  | nil => rfl
  | cons x xs ih =>
    cases n with
    | zero => simp [modifyAt, hf]
    | succ n => simp [modifyAt, ih]

theorem map_totalSize_apply (s : AdaptiveMemoryManager) (op : MemOp) :
    (MemOp.apply s op).memoryTiers.map MemoryTier.totalSize =
      s.memoryTiers.map MemoryTier.totalSize := by
  cases op with
  | registerProcess pid => rfl
  | unregisterProcess pid => rfl
  | predictMemoryNeeds pid currentUsage =>
    simp only [MemOp.apply, AdaptiveMemoryManager.predictMemoryNeeds]
    split <;> rfl
  | analyzeMemoryUsage =>
    simp only [MemOp.apply, AdaptiveMemoryManager.analyzeMemoryUsage,
      AdaptiveMemoryManager.redistributeMemory]
    split <;> rfl
  | allocateMemoryByTier pid size secLevel now =>
    simp only [MemOp.apply, AdaptiveMemoryManager.allocateMemoryByTier]
    split
    · simp only
      apply map_totalSize_modifyAt
      intro t
      rfl
    · rfl

/-- In every state reached from the constructor the total capacity summed by
`calculateSystemMemoryUtilization` is 1409286144, so the division is never by zero. -/
theorem total_capacity_run (ops : List MemOp) :
    AdaptiveMemoryManager.sumTiers MemoryTier.totalSize
      (MemOp.run AdaptiveMemoryManager.init ops).memoryTiers = 1409286144 := by
  have h : ∀ (l : List MemOp) (s : AdaptiveMemoryManager),
      (MemOp.run s l).memoryTiers.map MemoryTier.totalSize =
        s.memoryTiers.map MemoryTier.totalSize := by
    intro l
    induction l with
    | nil => intro s; rfl
    | cons op l ih =>
      intro s
      have hrun : MemOp.run s (op :: l) = MemOp.run (MemOp.apply s op) l := rfl
      rw [hrun, ih, map_totalSize_apply]
  have hsum : ∀ tiers : List MemoryTier,
      AdaptiveMemoryManager.sumTiers MemoryTier.totalSize tiers =
        (tiers.map MemoryTier.totalSize).foldl size_add 0 := by
    intro tiers
    simp [AdaptiveMemoryManager.sumTiers, List.foldl_map]
  rw [hsum, h, ← hsum]
  decide

/-! ## adaptive_memory_manager: utilization and redistribution -/

/-- Evaluation of the rounding at a tie whose lower neighbour is even. -/
theorem roundHalfEven_of_tie_even (x : ℚ) (m : ℤ) (hx : x = (m : ℚ) + 1 / 2)
    (hev : m % 2 = 0) : roundHalfEven x = m := by
  unfold roundHalfEven
  simp only
  have hfl : ⌊x⌋ = m := by
    rw [Int.floor_eq_iff]
    constructor <;> linarith
  rw [hfl, if_neg (by linarith), if_neg (by linarith), if_pos hev]

/-- Evaluation of `f32` at a tie: a positive `q` whose scaled value `q / 2^e` lies in
`[2^23, 2^24)` and is `m + 1/2` with `m` even rounds to `m * 2^e`. -/
theorem f32_eq_of_tie_even (q : ℚ) (m e : ℤ) (hlo : (2 : ℚ) ^ (23 : ℤ) ≤ q / (2 : ℚ) ^ e)
    (hhi : q / (2 : ℚ) ^ e < (2 : ℚ) ^ (24 : ℤ))
    (hx : q / (2 : ℚ) ^ e = (m : ℚ) + 1 / 2) (hev : m % 2 = 0) :
    f32 q = (m : ℚ) * (2 : ℚ) ^ e := by
  have hpos : (0 : ℚ) < (2 : ℚ) ^ e := zpow_pos (by norm_num) e
  have hq : 0 < q := by
    have : 0 < q / (2 : ℚ) ^ e := lt_of_lt_of_le (zpow_pos (by norm_num) _) hlo
    exact (div_pos_iff_of_pos_right hpos).1 this
  have hlog : Int.log 2 |q| = e + 23 := by
    rw [abs_of_pos hq]
    apply int_log_two_eq
    · rw [zpow_add₀ (by norm_num)]
      have := (le_div_iff₀ hpos).1 hlo
      linarith
    · rw [show e + 23 + 1 = e + 24 by ring, zpow_add₀ (by norm_num)]
      have := (div_lt_iff₀ hpos).1 hhi
      linarith
  unfold f32
  rw [if_neg (ne_of_gt hq)]
  simp only [hlog, add_sub_cancel_right]
  rw [roundHalfEven_of_tie_even _ m hx hev]

theorem c_0_7f_eq : c_0_7f = 11744051 / 16777216 := by
  unfold c_0_7f
  rw [f32_eq_of_near (7 / 10) 11744051 (-24) (by norm_num) (by norm_num) (by norm_num)
    (by norm_num)]
  norm_num

theorem f32_hundred : f32 100 = 100 := by
  rw [f32_eq_of_near 100 13107200 (-17) (by norm_num) (by norm_num) (by norm_num)
    (by norm_num)]
  norm_num

theorem f32_eighty : f32 80 = 80 := by
  rw [f32_eq_of_near 80 10485760 (-17) (by norm_num) (by norm_num) (by norm_num)
    (by norm_num)]
  norm_num

namespace AdaptiveMemoryManager

theorem analyzeMemoryUsage_state (s : AdaptiveMemoryManager) : (s.analyzeMemoryUsage).1 = s := by
  unfold analyzeMemoryUsage redistributeMemory
  simp only
  split <;> rfl

theorem analyzeMemoryUsage_flag (s : AdaptiveMemoryManager) :
    (s.analyzeMemoryUsage).2 = true ↔
      (utilizationIsLow s = true ∧ ∃ kv ∈ s.processMemoryUsage, kv.2 < 2048) := by
  have hstarved : identifyMemoryStarvedProcesses s ≠ [] ↔
      ∃ kv ∈ s.processMemoryUsage, kv.2 < 2048 := by
    unfold identifyMemoryStarvedProcesses
    rw [Ne, List.map_eq_nil_iff, List.filter_eq_nil_iff]
    constructor
    · intro h
      by_contra hno
      apply h
      intro kv hkv
      simp only [decide_eq_true_eq]
      intro hlt
      exact hno ⟨kv, hkv, hlt⟩
    · rintro ⟨kv, hkv, hlt⟩ h
      have := h kv hkv
      simp only [decide_eq_true_eq] at this
      exact this hlt
  unfold analyzeMemoryUsage
  simp only
  rw [← hstarved]
  split
  · rename_i h
    simpa using h
  · rename_i h
    simpa using h

end AdaptiveMemoryManager

/-- C18: in a state whose total capacity is not 0, `analyzeMemoryUsage` computes the
utilization `1.0f - (float)available / (float)total` from the sums of `availableSize`
and `totalSize` over the tiers, and calls the redistribution pass exactly when that
utilization is below `0.7f` and some tracked process has usage below 2048; so with no
tracked process, or with a utilization of at least `0.7f`, it does not call it. The state
is left as it is. -/
theorem analyzeMemoryUsage_redistribution (s : AdaptiveMemoryManager)
    (htotal : AdaptiveMemoryManager.sumTiers MemoryTier.totalSize s.memoryTiers ≠ 0) :
    s.calculateSystemMemoryUtilization =
      some (f32_sub 1
        (f32_div (f32 (AdaptiveMemoryManager.sumTiers MemoryTier.availableSize s.memoryTiers))
          (f32 (AdaptiveMemoryManager.sumTiers MemoryTier.totalSize s.memoryTiers)))) ∧
    ((s.analyzeMemoryUsage).2 = true ↔
      (f32_sub 1
        (f32_div (f32 (AdaptiveMemoryManager.sumTiers MemoryTier.availableSize s.memoryTiers))
          (f32 (AdaptiveMemoryManager.sumTiers MemoryTier.totalSize s.memoryTiers))) < c_0_7f ∧
        ∃ kv ∈ s.processMemoryUsage, kv.2 < 2048)) ∧
    (s.processMemoryUsage = [] → (s.analyzeMemoryUsage).2 = false) ∧
    (c_0_7f ≤ f32_sub 1
        (f32_div (f32 (AdaptiveMemoryManager.sumTiers MemoryTier.availableSize s.memoryTiers))
          (f32 (AdaptiveMemoryManager.sumTiers MemoryTier.totalSize s.memoryTiers))) →
      (s.analyzeMemoryUsage).2 = false) ∧
    (s.analyzeMemoryUsage).1 = s := by
  have hu : s.calculateSystemMemoryUtilization =
      some (f32_sub 1
        (f32_div (f32 (AdaptiveMemoryManager.sumTiers MemoryTier.availableSize s.memoryTiers))
          (f32 (AdaptiveMemoryManager.sumTiers MemoryTier.totalSize s.memoryTiers)))) := by
    unfold AdaptiveMemoryManager.calculateSystemMemoryUtilization
    simp only [htotal, if_false]
  have hlow : AdaptiveMemoryManager.utilizationIsLow s = true ↔
      f32_sub 1
        (f32_div (f32 (AdaptiveMemoryManager.sumTiers MemoryTier.availableSize s.memoryTiers))
          (f32 (AdaptiveMemoryManager.sumTiers MemoryTier.totalSize s.memoryTiers)))
        < c_0_7f := by
    unfold AdaptiveMemoryManager.utilizationIsLow
    rw [hu]
    simp only [decide_eq_true_eq]
  have hflag := AdaptiveMemoryManager.analyzeMemoryUsage_flag s
  rw [hlow] at hflag
  refine ⟨hu, hflag, ?_, ?_, AdaptiveMemoryManager.analyzeMemoryUsage_state s⟩
  · intro hempty
    rw [← Bool.not_eq_true, hflag, hempty]
    simp
  · intro hge
    rw [← Bool.not_eq_true, hflag]
    intro h
    exact absurd h.1 (not_lt.2 hge)

/-- C18 at the example: one tier with total 100 and available 80 and pid 1 tracked with
usage 0. The utilization is 3355443 / 16777216 (0.19999998807907104, within 10^-7 of
0.20), which is below `0.7f`, and the redistribution pass is called. -/
theorem analyzeMemoryUsage_redistribution_witness :
    AdaptiveMemoryManager.sumTiers MemoryTier.totalSize
      [{ totalSize := 100, availableSize := 80, accessSpeed := 1, allocations := [] }] ≠ 0 ∧
    AdaptiveMemoryManager.calculateSystemMemoryUtilization
      { memoryTiers :=
          [{ totalSize := 100, availableSize := 80, accessSpeed := 1, allocations := [] }],
        processMemoryNeeds := [(1, { expectedGrowth := 0 })],
        processMemoryUsage := [(1, 0)] } = some (3355443 / 16777216) ∧
    |(3355443 / 16777216 : ℚ) - 1 / 5| < 1 / 10 ^ 7 ∧
    (AdaptiveMemoryManager.analyzeMemoryUsage
      { memoryTiers :=
          [{ totalSize := 100, availableSize := 80, accessSpeed := 1, allocations := [] }],
        processMemoryNeeds := [(1, { expectedGrowth := 0 })],
        processMemoryUsage := [(1, 0)] }).2 = true := by
  have hne : AdaptiveMemoryManager.sumTiers MemoryTier.totalSize
      [{ totalSize := 100, availableSize := 80, accessSpeed := 1, allocations := [] }] ≠ 0 := by
    decide
  have hval : f32_sub 1 (f32_div (f32 ((80 : Nat) : ℚ)) (f32 ((100 : Nat) : ℚ))) =
      3355443 / 16777216 := by
    have h1 : f32 (80 / 100) = 13421773 / 16777216 := by
      rw [f32_eq_of_near (80 / 100) 13421773 (-24) (by norm_num) (by norm_num) (by norm_num)
        (by norm_num)]
      norm_num
    have h2 : f32 (1 - 13421773 / 16777216) = 3355443 / 16777216 := by
      rw [f32_eq_of_near (1 - 13421773 / 16777216) 13421772 (-26) (by norm_num) (by norm_num)
        (by norm_num) (by norm_num)]
      norm_num
    rw [show (((80 : Nat) : ℚ)) = 80 by norm_num, show (((100 : Nat) : ℚ)) = 100 by norm_num,
      f32_eighty, f32_hundred, f32_sub, f32_div, h1, h2]
  have h := analyzeMemoryUsage_redistribution
    { memoryTiers :=
        [{ totalSize := 100, availableSize := 80, accessSpeed := 1, allocations := [] }],
      processMemoryNeeds := [(1, { expectedGrowth := 0 })],
      processMemoryUsage := [(1, 0)] } hne
  have ha : AdaptiveMemoryManager.sumTiers MemoryTier.availableSize
      [{ totalSize := 100, availableSize := 80, accessSpeed := 1, allocations := [] }] = 80 := by
    decide
  have ht : AdaptiveMemoryManager.sumTiers MemoryTier.totalSize
      [{ totalSize := 100, availableSize := 80, accessSpeed := 1, allocations := [] }] = 100 := by
    decide
  simp only [ha, ht, hval] at h
  refine ⟨hne, h.1, by norm_num [abs_lt], ?_⟩
  rw [h.2.1]
  refine ⟨?_, (1, 0), by simp, by norm_num⟩
  rw [c_0_7f_eq]
  norm_num

/-! ## adaptive_scheduler: priority and time slice -/

theorem f32_eleven : f32 11 = 11 := by
  rw [f32_eq_of_near 11 11534336 (-20) (by norm_num) (by norm_num) (by norm_num)
    (by norm_num)]
  norm_num

/-- The importance of a process with 11 interactions: `11.0f * 0.1f + 1.0f` is
4404019 / 2097152 (2.0999999046325684). -/
theorem importance_at_eleven : f32_add (f32_mul (f32 11) c_0_1f) 1 = 4404019 / 2097152 := by
  have h1 : f32 (11 * (13421773 / 134217728)) = 9227469 / 8388608 := by
    rw [f32_eq_of_near (11 * (13421773 / 134217728)) 9227469 (-23) (by norm_num)
      (by norm_num) (by norm_num) (by norm_num)]
    norm_num
  have h2 : f32 (9227469 / 8388608 + 1) = 4404019 / 2097152 := by
    rw [f32_eq_of_tie_even (9227469 / 8388608 + 1) 8808038 (-22) (by norm_num) (by norm_num)
      (by norm_num) (by decide)]
    norm_num
  rw [f32_add, f32_mul, f32_eleven, c_0_1f_eq, h1, h2]

/-- The time slice at 11 interactions: `100 * importance * 1.0f` is 13762559 / 65536
(209.99998474121094) and converts to 209. -/
theorem timeSlice_at_eleven :
    f32_mul (f32_mul (f32 100) (4404019 / 2097152)) 1 = 13762559 / 65536 ∧
    f32_to_int (13762559 / 65536) = 209 := by
  have h1 : f32 (100 * (4404019 / 2097152)) = 13762559 / 65536 := by
    rw [f32_eq_of_near (100 * (4404019 / 2097152)) 13762559 (-16) (by norm_num)
      (by norm_num) (by norm_num) (by norm_num)]
    norm_num
  have h2 : f32 (13762559 / 65536 * 1) = 13762559 / 65536 := by
    rw [f32_eq_of_near (13762559 / 65536 * 1) 13762559 (-16) (by norm_num)
      (by norm_num) (by norm_num) (by norm_num)]
    norm_num
  constructor
  · rw [f32_mul, f32_mul, f32_hundred, h1, h2]
  · unfold f32_to_int
    rw [if_pos (by norm_num), Int.floor_eq_iff]
    constructor <;> norm_num

/-- The importance of a process with 1 interaction is 9227469 / 8388608; its priority is
11 and its time slice 110. -/
theorem decision_at_one :
    f32_add (f32_mul (f32 1) c_0_1f) 1 = 9227469 / 8388608 ∧
    f32_to_int (f32_mul (9227469 / 8388608) (f32 10)) = 11 ∧
    f32_to_int (f32_mul (f32_mul (f32 100) (9227469 / 8388608)) 1) = 110 := by
  have h1 : f32 (1 * (13421773 / 134217728)) = 13421773 / 134217728 := by
    rw [f32_eq_of_near (1 * (13421773 / 134217728)) 13421773 (-27) (by norm_num)
      (by norm_num) (by norm_num) (by norm_num)]
    norm_num
  have h2 : f32 (13421773 / 134217728 + 1) = 9227469 / 8388608 := by
    rw [f32_eq_of_near (13421773 / 134217728 + 1) 9227469 (-23) (by norm_num)
      (by norm_num) (by norm_num) (by norm_num)]
    norm_num
  have h3 : f32 (9227469 / 8388608 * 10) = 11 := by
    rw [f32_eq_of_near (9227469 / 8388608 * 10) 11534336 (-20) (by norm_num)
      (by norm_num) (by norm_num) (by norm_num)]
    norm_num
  have h4 : f32 (100 * (9227469 / 8388608)) = 110 := by
    rw [f32_eq_of_near (100 * (9227469 / 8388608)) 14417920 (-17) (by norm_num)
      (by norm_num) (by norm_num) (by norm_num)]
    norm_num
  have h5 : f32 (110 * 1) = 110 := by
    rw [f32_eq_of_near (110 * 1) 14417920 (-17) (by norm_num)
      (by norm_num) (by norm_num) (by norm_num)]
    norm_num
  have hfl : ∀ z : ℤ, 0 ≤ z → f32_to_int (z : ℚ) = z := by
    intro z hz
    unfold f32_to_int
    rw [if_pos (by exact_mod_cast hz), Int.floor_intCast]
  refine ⟨?_, ?_, ?_⟩
  · rw [f32_add, f32_mul, f32_one, c_0_1f_eq, h1, h2]
  · rw [f32_mul, f32_ten, h3]
    exact_mod_cast hfl 11 (by norm_num)
  · rw [f32_mul, f32_mul, f32_hundred, h4, h5]
    exact_mod_cast hfl 110 (by norm_num)

/-- The decision at 0 interactions: importance 1, priority 10, time slice 100. -/
theorem decision_at_zero :
    f32_add (f32_mul (f32 0) c_0_1f) 1 = 1 ∧
    f32_to_int (f32_mul 1 (f32 10)) = 10 ∧
    f32_to_int (f32_mul (f32_mul (f32 100) 1) 1) = 100 := by
  have hfl : ∀ z : ℤ, 0 ≤ z → f32_to_int (z : ℚ) = z := by
    intro z hz
    unfold f32_to_int
    rw [if_pos (by exact_mod_cast hz), Int.floor_intCast]
  refine ⟨?_, ?_, ?_⟩
  · simp [f32_add, f32_mul, f32_zero, f32_one]
  · rw [f32_mul, f32_ten, one_mul, f32_ten]
    exact_mod_cast hfl 10 (by norm_num)
  · rw [f32_mul, f32_mul, f32_hundred, mul_one, mul_one, f32_hundred, f32_hundred]
    exact_mod_cast hfl 100 (by norm_num)

/-- C12 fails on the code: a process registered and updated 11 times has
`interactionCount` 11; its importance is 4404019 / 2097152, the product
`100 * importance * 1.0f` is 13762559 / 65536 (209.99998...), and the conversion to `int`
truncates it: the time slice is 209 ms, where rounding gives 210 = 100 + 10 * 11. -/
theorem calculateTimeSlice_truncates :
    (UpdateCall.run (AdaptiveScheduler.init.registerProcess 1 "p")
      (List.replicate 11
        { pid := 1, event := { type := ApplicationEventType.OTHER, previous_pid := 0 },
          cpuUsage := 0, ioUsage := 0, now := 0 })).processMetrics =
      [(1, { lastInteractionTime := 0, interactionCount := 11, burstCount := 0,
             cpuUsage := 0, ioUsage := 0 })] ∧
    ((UpdateCall.run (AdaptiveScheduler.init.registerProcess 1 "p")
      (List.replicate 11
        { pid := 1, event := { type := ApplicationEventType.OTHER, previous_pid := 0 },
          cpuUsage := 0, ioUsage := 0, now := 0 })).calculateProcessPriorities 0).map
        (fun d => (d.process_id, d.importance_factor, d.allocation.ms)) =
      [(1, 4404019 / 2097152, 209)] ∧
    f32_mul (f32_mul (f32 100) (4404019 / 2097152)) 1 = 13762559 / 65536 ∧
    round (13762559 / 65536 : ℚ) = 210 ∧
    (209 : Int) ≠ 100 + 10 * 11 := by
  have hmet : (UpdateCall.run (AdaptiveScheduler.init.registerProcess 1 "p")
      (List.replicate 11
        { pid := 1, event := { type := ApplicationEventType.OTHER, previous_pid := 0 },
          cpuUsage := 0, ioUsage := 0, now := 0 })).processMetrics =
      [(1, { lastInteractionTime := 0, interactionCount := 11, burstCount := 0,
             cpuUsage := 0, ioUsage := 0 })] := by
    decide
  have himpf : f32 (4404019 / 2097152 * 1) = 4404019 / 2097152 := by
    rw [f32_eq_of_near (4404019 / 2097152 * 1) 8808038 (-22) (by norm_num)
      (by norm_num) (by norm_num) (by norm_num)]
    norm_num
  refine ⟨hmet, ?_, timeSlice_at_eleven.1, ?_, by decide⟩
  · unfold AdaptiveScheduler.calculateProcessPriorities
    rw [hmet]
    simp only [List.map_cons, List.map_nil, std_sort, List.foldl_cons, List.foldl_nil,
      sortInsert, AdaptiveScheduler.decide_for, ML.predict,
      AdaptiveScheduler.calculateTimeSlice, AdaptiveScheduler.getSystemPerformanceFactor]
    rw [show (((11 : Int) : ℚ)) = 11 by norm_num, importance_at_eleven,
      timeSlice_at_eleven.1, timeSlice_at_eleven.2, f32_mul, himpf]
  · rw [round_eq, Int.floor_eq_iff]
    constructor <;> norm_num

/-- C12, amended: every decision returned by `calculateProcessPriorities` comes from a
metrics entry and every metrics entry has its decision; the decision of a process with `interactionCount` n has, in binary32
arithmetic, importance `float(n) * 0.1f + 1.0f`, `base_priority` the truncation toward
zero of `importance * 10` and time slice the truncation toward zero of
`100 * importance * 1.0f`. For n = 0 this is priority 10 and time slice 100, for n = 1
priority 11 and time slice 110. -/
theorem calculateProcessPriorities_decision_values (s : AdaptiveScheduler) (now : Int) :
    (∀ d ∈ s.calculateProcessPriorities now, ∃ kv ∈ s.processMetrics,
      d.process_id = kv.1 ∧
      d.importance_factor =
        f32_mul (f32_add (f32_mul (f32 (kv.2.interactionCount : ℚ)) c_0_1f) 1) 1 ∧
      d.base_priority =
        f32_to_int (f32_mul (f32_add (f32_mul (f32 (kv.2.interactionCount : ℚ)) c_0_1f) 1)
          (f32 10)) ∧
      d.allocation.ms =
        f32_to_int (f32_mul (f32_mul (f32 100)
          (f32_add (f32_mul (f32 (kv.2.interactionCount : ℚ)) c_0_1f) 1)) 1)) ∧
    (∀ kv ∈ s.processMetrics, ∃ d ∈ s.calculateProcessPriorities now,
      d.process_id = kv.1 ∧
      d.base_priority =
        f32_to_int (f32_mul (f32_add (f32_mul (f32 (kv.2.interactionCount : ℚ)) c_0_1f) 1)
          (f32 10)) ∧
      d.allocation.ms =
        f32_to_int (f32_mul (f32_mul (f32 100)
          (f32_add (f32_mul (f32 (kv.2.interactionCount : ℚ)) c_0_1f) 1)) 1)) ∧
    (f32_to_int (f32_mul (f32_add (f32_mul (f32 ((0 : Int) : ℚ)) c_0_1f) 1) (f32 10)) = 10 ∧
      f32_to_int (f32_mul (f32_mul (f32 100)
        (f32_add (f32_mul (f32 ((0 : Int) : ℚ)) c_0_1f) 1)) 1) = 100) ∧
    (f32_to_int (f32_mul (f32_add (f32_mul (f32 ((1 : Int) : ℚ)) c_0_1f) 1) (f32 10)) = 11 ∧
      f32_to_int (f32_mul (f32_mul (f32 100)
        (f32_add (f32_mul (f32 ((1 : Int) : ℚ)) c_0_1f) 1)) 1) = 110) := by
  refine ⟨?_, ?_, ?_, ?_⟩
  · intro d hd
    obtain ⟨kv, hkv, rfl⟩ := (mem_calculateProcessPriorities s now d).1 hd
    exact ⟨kv, hkv, rfl, rfl, rfl, rfl⟩
  · intro kv hkv
    exact ⟨AdaptiveScheduler.decide_for s now kv.1 kv.2,
      (mem_calculateProcessPriorities s now _).2 ⟨kv, hkv, rfl⟩, rfl, rfl, rfl⟩
  · rw [show (((0 : Int) : ℚ)) = 0 by norm_num, decision_at_zero.1]
    exact ⟨decision_at_zero.2.1, decision_at_zero.2.2⟩
  · rw [show (((1 : Int) : ℚ)) = 1 by norm_num, decision_at_one.1]
    exact ⟨decision_at_one.2.1, decision_at_one.2.2⟩

/-! ## adaptive_memory_manager: the two per-process maps -/

namespace UMap

theorem isSome_find_assign {V : Type} (m : List (pid_t × V)) (k q : pid_t) (v : V) :
    (find (assign m k v) q).isSome = (decide (q = k) || (find m q).isSome) := by
  by_cases h : q = k
  · subst h
    simp [find_assign_same]
  · simp [find_assign_other _ _ _ _ h, h]

theorem isSome_find_erase {V : Type} (m : List (pid_t × V)) (k q : pid_t) :
    (find (erase m k) q).isSome = (!decide (q = k) && (find m q).isSome) := by
  by_cases h : q = k
  · subst h
    simp [find_erase_same]
  · simp [find_erase_other _ _ _ h, h]

end UMap

namespace MemOp

/-- One call keeps every pid with a prediction entry tracked in the usage map. -/
theorem needs_tracked_apply (s : AdaptiveMemoryManager) (op : MemOp)
    (hinv : ∀ q, (UMap.find s.processMemoryNeeds q).isSome = true →
      (UMap.find s.processMemoryUsage q).isSome = true) :
    ∀ q, (UMap.find (apply s op).processMemoryNeeds q).isSome = true →
      (UMap.find (apply s op).processMemoryUsage q).isSome = true := by
  intro q
  have hq := hinv q
  cases op with
  | registerProcess pid =>
    simp only [apply, AdaptiveMemoryManager.registerProcess, UMap.isSome_find_assign,
      Bool.or_eq_true, decide_eq_true_eq]
    tauto
  | unregisterProcess pid =>
    simp only [apply, AdaptiveMemoryManager.unregisterProcess, UMap.isSome_find_erase,
      Bool.and_eq_true, Bool.not_eq_true', decide_eq_false_iff_not]
    tauto
  | predictMemoryNeeds pid currentUsage =>
    rw [show apply s (predictMemoryNeeds pid currentUsage) =
      (s.predictMemoryNeeds pid currentUsage).1 from rfl,
      AdaptiveMemoryManager.predictMemoryNeeds_state]
    simp only [UMap.isSome_find_assign, Bool.or_eq_true, decide_eq_true_eq]
    tauto
  | analyzeMemoryUsage =>
    rw [show apply s analyzeMemoryUsage = (s.analyzeMemoryUsage).1 from rfl,
      AdaptiveMemoryManager.analyzeMemoryUsage_state]
    exact hq
  | allocateMemoryByTier pid size secLevel now =>
    simp only [apply, AdaptiveMemoryManager.allocateMemoryByTier]
    split
    · simp only [UMap.isSome_find_assign, Bool.or_eq_true, decide_eq_true_eq]
      tauto
    · exact hq

/-- One call that is not an allocation for an untracked pid keeps the two maps on the
same pids. -/
theorem same_pids_apply (s : AdaptiveMemoryManager) (op : MemOp)
    (hinv : ∀ q, (UMap.find s.processMemoryNeeds q).isSome =
      (UMap.find s.processMemoryUsage q).isSome)
    (hon : onTracked s op = true) :
    ∀ q, (UMap.find (apply s op).processMemoryNeeds q).isSome =
      (UMap.find (apply s op).processMemoryUsage q).isSome := by
  intro q
  have hq := hinv q
  cases op with
  | registerProcess pid =>
    simp only [apply, AdaptiveMemoryManager.registerProcess, UMap.isSome_find_assign, hq]
  | unregisterProcess pid =>
    simp only [apply, AdaptiveMemoryManager.unregisterProcess, UMap.isSome_find_erase, hq]
  | predictMemoryNeeds pid currentUsage =>
    rw [show apply s (predictMemoryNeeds pid currentUsage) =
      (s.predictMemoryNeeds pid currentUsage).1 from rfl,
      AdaptiveMemoryManager.predictMemoryNeeds_state]
    simp only [UMap.isSome_find_assign, hq]
  | analyzeMemoryUsage =>
    rw [show apply s analyzeMemoryUsage = (s.analyzeMemoryUsage).1 from rfl,
      AdaptiveMemoryManager.analyzeMemoryUsage_state]
    exact hq
  | allocateMemoryByTier pid size secLevel now =>
    have hpid : (UMap.find s.processMemoryUsage pid).isSome = true := by
      rw [← hinv pid]
      exact hon
    simp only [apply, AdaptiveMemoryManager.allocateMemoryByTier]
    split
    · simp only [UMap.isSome_find_assign, hq]
      by_cases h : q = pid
      · subst h
        simp [hpid]
      · simp [h]
    · exact hq

theorem needs_tracked_run (ops : List MemOp) (s : AdaptiveMemoryManager)
    (hinv : ∀ q, (UMap.find s.processMemoryNeeds q).isSome = true →
      (UMap.find s.processMemoryUsage q).isSome = true) :
    ∀ q, (UMap.find (run s ops).processMemoryNeeds q).isSome = true →
      (UMap.find (run s ops).processMemoryUsage q).isSome = true := by
  induction ops generalizing s with
  | nil => exact hinv
  | cons op ops ih => exact ih (apply s op) (needs_tracked_apply s op hinv)

theorem same_pids_run (ops : List MemOp) (s : AdaptiveMemoryManager)
    (hinv : ∀ q, (UMap.find s.processMemoryNeeds q).isSome =
      (UMap.find s.processMemoryUsage q).isSome)
    (hon : allOnTracked s ops = true) :
    ∀ q, (UMap.find (run s ops).processMemoryNeeds q).isSome =
      (UMap.find (run s ops).processMemoryUsage q).isSome := by
  induction ops generalizing s with
  | nil => exact hinv
  | cons op ops ih =>
    simp only [allOnTracked, Bool.and_eq_true] at hon
    exact ih (apply s op) (same_pids_apply s op hinv hon.1) hon.2

end MemOp

/-- C21 fails on the code: one `allocateMemoryByTier(1, 100, LOW)` on the freshly
constructed manager leaves pid 1 with a tracked-usage entry and no prediction entry:
`getTotalMemoryUsage` is 100, all of it from pid 1, and `getAllPIDs` is empty. -/
theorem allocation_tracks_pid_without_prediction :
    (MemOp.run AdaptiveMemoryManager.init
      [MemOp.allocateMemoryByTier 1 100 SecurityLevel.LOW 0]).getAllPIDs = [] ∧
    UMap.keys (MemOp.run AdaptiveMemoryManager.init
      [MemOp.allocateMemoryByTier 1 100 SecurityLevel.LOW 0]).processMemoryUsage = [1] ∧
    (MemOp.run AdaptiveMemoryManager.init
      [MemOp.allocateMemoryByTier 1 100 SecurityLevel.LOW 0]).getTotalMemoryUsage = 100 := by
  decide

/-- C21, amended: in every state reached from the freshly constructed manager by a
sequence of public operations, every pid listed by `getAllPIDs` (a prediction entry) has
a tracked-usage entry; and when every `allocateMemoryByTier` of the sequence is for a pid
that has a prediction entry at the time of the call, the two maps hold exactly the same
pids, so every pid summed by `getTotalMemoryUsage` is listed by `getAllPIDs`. -/
theorem prediction_and_usage_pids (ops : List MemOp) :
    (∀ q : pid_t, q ∈ (MemOp.run AdaptiveMemoryManager.init ops).getAllPIDs →
      q ∈ UMap.keys (MemOp.run AdaptiveMemoryManager.init ops).processMemoryUsage) ∧
    (MemOp.allOnTracked AdaptiveMemoryManager.init ops = true →
      ∀ q : pid_t, q ∈ (MemOp.run AdaptiveMemoryManager.init ops).getAllPIDs ↔
        q ∈ UMap.keys (MemOp.run AdaptiveMemoryManager.init ops).processMemoryUsage) := by
  constructor
  · intro q hq
    rw [AdaptiveMemoryManager.getAllPIDs, UMap.mem_keys_iff_find] at hq
    rw [UMap.mem_keys_iff_find]
    exact MemOp.needs_tracked_run ops AdaptiveMemoryManager.init (fun _ h => h) q hq
  · intro hon q
    rw [AdaptiveMemoryManager.getAllPIDs, UMap.mem_keys_iff_find, UMap.mem_keys_iff_find,
      MemOp.same_pids_run ops AdaptiveMemoryManager.init (fun _ => rfl) hon q]

/-- C21, amended, at a concrete sequence: two processes registered, one predicted and
allocated, one unregistered; the two maps hold pid 1 only. -/
theorem prediction_and_usage_pids_witness :
    MemOp.allOnTracked AdaptiveMemoryManager.init
      [MemOp.registerProcess 1, MemOp.registerProcess 2, MemOp.predictMemoryNeeds 1 5000,
        MemOp.allocateMemoryByTier 1 4096 SecurityLevel.MEDIUM 10,
        MemOp.unregisterProcess 2, MemOp.analyzeMemoryUsage] = true ∧
    ∀ q : pid_t, q ∈ (MemOp.run AdaptiveMemoryManager.init
      [MemOp.registerProcess 1, MemOp.registerProcess 2, MemOp.predictMemoryNeeds 1 5000,
        MemOp.allocateMemoryByTier 1 4096 SecurityLevel.MEDIUM 10,
        MemOp.unregisterProcess 2, MemOp.analyzeMemoryUsage]).getAllPIDs ↔
      q ∈ UMap.keys (MemOp.run AdaptiveMemoryManager.init
        [MemOp.registerProcess 1, MemOp.registerProcess 2, MemOp.predictMemoryNeeds 1 5000,
          MemOp.allocateMemoryByTier 1 4096 SecurityLevel.MEDIUM 10,
          MemOp.unregisterProcess 2, MemOp.analyzeMemoryUsage]).processMemoryUsage :=
  have hon : MemOp.allOnTracked AdaptiveMemoryManager.init
      [MemOp.registerProcess 1, MemOp.registerProcess 2, MemOp.predictMemoryNeeds 1 5000,
        MemOp.allocateMemoryByTier 1 4096 SecurityLevel.MEDIUM 10,
        MemOp.unregisterProcess 2, MemOp.analyzeMemoryUsage] = true := by
    decide
  ⟨hon, (prediction_and_usage_pids _).2 hon⟩

/-! ## Accuracy of the float model -/

/-- Rounding to the nearest integer moves a value by at most 1/2. -/
theorem roundHalfEven_error (x : ℚ) : |((roundHalfEven x : ℤ) : ℚ) - x| ≤ 1 / 2 := by
  have h0 : ((⌊x⌋ : ℤ) : ℚ) ≤ x := Int.floor_le x
  have h1 : x < ((⌊x⌋ : ℤ) : ℚ) + 1 := Int.lt_floor_add_one x
  unfold roundHalfEven
  simp only
  split_ifs with c1 c2 c3
  · rw [abs_le]; constructor <;> linarith
  · rw [abs_le]; constructor <;> push_cast <;> linarith
  · rw [abs_le]; constructor <;> linarith
  · rw [abs_le]; constructor <;> push_cast <;> linarith

/-- Relative accuracy of binary32 rounding: a non-negative value moves by at most the
fraction 2^-24 of itself. -/
theorem f32_rel_error (q : ℚ) (hq : 0 ≤ q) :
    (1 - 1 / 16777216) * q ≤ f32 q ∧ f32 q ≤ (1 + 1 / 16777216) * q := by
  rcases eq_or_lt_of_le hq with h0 | hpos
  · rw [← h0, f32_zero]
    constructor <;> norm_num
  · have hL : (2 : ℚ) ^ (Int.log 2 q) ≤ q := by
      have := Int.zpow_log_le_self (b := 2) (by norm_num) hpos
      simpa using this
    have hP : (0 : ℚ) < (2 : ℚ) ^ (Int.log 2 q - 23) := zpow_pos (by norm_num) _
    have hPeq : (2 : ℚ) ^ (Int.log 2 q - 23) = (2 : ℚ) ^ (Int.log 2 q) / 8388608 := by
      rw [zpow_sub₀ (by norm_num)]
      norm_num
    have herr := roundHalfEven_error (q / (2 : ℚ) ^ (Int.log 2 q - 23))
    rw [abs_le] at herr
    have hs : q / (2 : ℚ) ^ (Int.log 2 q - 23) * (2 : ℚ) ^ (Int.log 2 q - 23) = q :=
      div_mul_cancel₀ q (ne_of_gt hP)
    have hval : f32 q =
        ((roundHalfEven (q / (2 : ℚ) ^ (Int.log 2 q - 23)) : ℤ) : ℚ) *
          (2 : ℚ) ^ (Int.log 2 q - 23) := by
      unfold f32
      rw [if_neg (ne_of_gt hpos), abs_of_pos hpos]
    have hlo := mul_le_mul_of_nonneg_right herr.1 hP.le
    have hhi := mul_le_mul_of_nonneg_right herr.2 hP.le
    rw [sub_mul, hs] at hlo hhi
    rw [hval]
    rw [hPeq] at hlo hhi ⊢
    constructor <;> linarith

/-- The importance computed from a count `b` in `[0, 2^20)` is strictly below the one
computed from any larger count. -/
theorem importance_strict (a b : Int) (hb0 : 0 ≤ b) (hb : b < 1048576) (hab : b < a) :
    f32_mul (f32_add (f32_mul (f32 (b : ℚ)) c_0_1f) 1) 1 <
      f32_mul (f32_add (f32_mul (f32 (a : ℚ)) c_0_1f) 1) 1 := by
  have hB0 : (0 : ℚ) ≤ (b : ℚ) := by exact_mod_cast hb0
  have hB : (b : ℚ) < 1048576 := by exact_mod_cast hb
  have hAB : (b : ℚ) + 1 ≤ (a : ℚ) := by exact_mod_cast hab
  have hA0 : (0 : ℚ) ≤ (a : ℚ) := by linarith
  simp only [f32_mul, f32_add, c_0_1f_eq]
  obtain ⟨xa1, xa2⟩ := f32_rel_error (a : ℚ) hA0
  obtain ⟨xb1, xb2⟩ := f32_rel_error (b : ℚ) hB0
  have hxa : 0 ≤ f32 (a : ℚ) := by linarith
  have hxb : 0 ≤ f32 (b : ℚ) := by linarith
  obtain ⟨ya1, ya2⟩ := f32_rel_error (f32 (a : ℚ) * (13421773 / 134217728)) (by positivity)
  obtain ⟨yb1, yb2⟩ := f32_rel_error (f32 (b : ℚ) * (13421773 / 134217728)) (by positivity)
  have hya : 0 ≤ f32 (f32 (a : ℚ) * (13421773 / 134217728)) := by linarith
  have hyb : 0 ≤ f32 (f32 (b : ℚ) * (13421773 / 134217728)) := by linarith
  obtain ⟨za1, za2⟩ :=
    f32_rel_error (f32 (f32 (a : ℚ) * (13421773 / 134217728)) + 1) (by linarith)
  obtain ⟨zb1, zb2⟩ :=
    f32_rel_error (f32 (f32 (b : ℚ) * (13421773 / 134217728)) + 1) (by linarith)
  have hza : 0 ≤ f32 (f32 (f32 (a : ℚ) * (13421773 / 134217728)) + 1) := by linarith
  have hzb : 0 ≤ f32 (f32 (f32 (b : ℚ) * (13421773 / 134217728)) + 1) := by linarith
  obtain ⟨wa1, wa2⟩ :=
    f32_rel_error (f32 (f32 (f32 (a : ℚ) * (13421773 / 134217728)) + 1) * 1) (by linarith)
  obtain ⟨wb1, wb2⟩ :=
    f32_rel_error (f32 (f32 (f32 (b : ℚ) * (13421773 / 134217728)) + 1) * 1) (by linarith)
  linarith

/-! ## adaptive_scheduler: completeness and ranking -/

theorem perm_sortInsert {α : Type} (comp : α → α → Bool) (x : α) (l : List α) :
    (sortInsert comp x l).Perm (x :: l) := by
  induction l with
  | nil => exact List.Perm.refl _
  | cons y ys ih =>
    by_cases h : comp x y = true
    · simp only [sortInsert, h, if_true]
      exact List.Perm.refl _
    · simp only [sortInsert, h, Bool.false_eq_true, if_false]
      exact (List.Perm.cons y ih).trans (List.Perm.swap x y ys)

theorem perm_foldl_sortInsert {α : Type} (comp : α → α → Bool) (l acc : List α) :
    (l.foldl (fun acc x => sortInsert comp x acc) acc).Perm (l ++ acc) := by
  induction l generalizing acc with
  | nil => exact List.Perm.refl _
  | cons x xs ih =>
    simp only [List.foldl_cons, List.cons_append]
    exact (ih _).trans ((List.Perm.append_left xs (perm_sortInsert comp x acc)).trans
      List.perm_middle)

/-- The sort returns a permutation of its input. -/
theorem perm_std_sort {α : Type} (comp : α → α → Bool) (l : List α) :
    (std_sort comp l).Perm l := by
  have h := perm_foldl_sortInsert comp l []
  rwa [List.append_nil] at h

/-- Two different members of a list occur in it in one order or the other. -/
theorem sublist_pair_of_mem {α : Type} (x y : α) (l : List α) (hx : x ∈ l) (hy : y ∈ l)
    (hne : x ≠ y) : List.Sublist [x, y] l ∨ List.Sublist [y, x] l := by
  induction l with
  | nil => cases hx
  | cons z t ih =>
    rcases List.mem_cons.1 hx with hxz | hxt
    · rcases List.mem_cons.1 hy with hyz | hyt
      · exact absurd (hxz.trans hyz.symm) hne
      · left
        rw [hxz]
        exact List.cons_sublist_cons.2 (List.singleton_sublist.2 hyt)
    · rcases List.mem_cons.1 hy with hyz | hyt
      · right
        rw [hyz]
        exact List.cons_sublist_cons.2 (List.singleton_sublist.2 hxt)
      · rcases ih hxt hyt with h | h
        · exact Or.inl (List.Sublist.cons z h)
        · exact Or.inr (List.Sublist.cons z h)

theorem f32_two_pow_24 : f32 16777216 = 16777216 := by
  rw [f32_eq_of_near 16777216 8388608 1 (by norm_num) (by norm_num) (by norm_num)
    (by norm_num)]
  norm_num

/-- The count 2^24 + 1 is not a binary32 value: it converts to 2^24. -/
theorem f32_two_pow_24_succ : f32 16777217 = 16777216 := by
  rw [f32_eq_of_tie_even 16777217 8388608 1 (by norm_num) (by norm_num) (by norm_num)
    (by decide)]
  norm_num

/-- The importance factor at 2^24 interactions is 13421781 / 8 (1677722.625). -/
theorem importance_at_two_pow_24 :
    f32_mul (f32_add (f32_mul 16777216 c_0_1f) 1) 1 = 13421781 / 8 := by
  have h1 : f32 (16777216 * (13421773 / 134217728)) = 13421773 / 8 := by
    rw [f32_eq_of_near (16777216 * (13421773 / 134217728)) 13421773 (-3) (by norm_num)
      (by norm_num) (by norm_num) (by norm_num)]
    norm_num
  have h2 : f32 (13421773 / 8 + 1) = 13421781 / 8 := by
    rw [f32_eq_of_near (13421773 / 8 + 1) 13421781 (-3) (by norm_num)
      (by norm_num) (by norm_num) (by norm_num)]
    norm_num
  have h3 : f32 (13421781 / 8 * 1) = 13421781 / 8 := by
    rw [f32_eq_of_near (13421781 / 8 * 1) 13421781 (-3) (by norm_num)
      (by norm_num) (by norm_num) (by norm_num)]
    norm_num
  rw [f32_mul, f32_add, f32_mul, c_0_1f_eq, h1, h2, h3]

/-- With two metrics entries of which the second does not have the larger importance
factor, the decisions are returned in the order of the entries. -/
theorem calculateProcessPriorities_pair (s : AdaptiveScheduler) (now : Int) (p1 p2 : pid_t)
    (m1 m2 : UsageMetrics) (hs : s.processMetrics = [(p1, m1), (p2, m2)])
    (hnot : ¬ (AdaptiveScheduler.decide_for s now p2 m2).importance_factor >
      (AdaptiveScheduler.decide_for s now p1 m1).importance_factor) :
    s.calculateProcessPriorities now =
      [AdaptiveScheduler.decide_for s now p1 m1, AdaptiveScheduler.decide_for s now p2 m2] := by
  unfold AdaptiveScheduler.calculateProcessPriorities
  rw [hs]
  simp [std_sort, sortInsert, AdaptiveScheduler.importanceGreater, hnot]

/-- C22 fails on the code in its ranking part: with pid 1 at 16777216 interactions and
pid 2 at 16777217, the count of pid 2 converts to the same binary32 value, both decisions
have importance factor 13421781 / 8, and pid 2, which has more interactions, is returned
after pid 1. -/
theorem more_interactions_not_ranked_higher :
    ((AdaptiveScheduler.calculateProcessPriorities
      { processMetrics :=
          [(1, { lastInteractionTime := 0, interactionCount := 16777216, burstCount := 0,
                 cpuUsage := 0, ioUsage := 0 }),
           (2, { lastInteractionTime := 0, interactionCount := 16777217, burstCount := 0,
                 cpuUsage := 0, ioUsage := 0 })],
        userProfiles := [(1, { pid := 1, name := "a" }), (2, { pid := 2, name := "b" })],
        dependencies := [] } 0).map
      (fun d => (d.process_id, d.importance_factor))) =
      [(1, 13421781 / 8), (2, 13421781 / 8)] ∧
    ¬ ((13421781 / 8 : ℚ) < 13421781 / 8) := by
  have h1 : ∀ (st : AdaptiveScheduler) (p : pid_t) (m : UsageMetrics),
      m.interactionCount = 16777216 →
      (AdaptiveScheduler.decide_for st 0 p m).importance_factor = 13421781 / 8 := by
    intro st p m hm
    show f32_mul (f32_add (f32_mul (f32 (m.interactionCount : ℚ)) c_0_1f) 1) 1 = 13421781 / 8
    rw [hm, show (((16777216 : Int) : ℚ)) = 16777216 by norm_num, f32_two_pow_24,
      importance_at_two_pow_24]
  have h2 : ∀ (st : AdaptiveScheduler) (p : pid_t) (m : UsageMetrics),
      m.interactionCount = 16777217 →
      (AdaptiveScheduler.decide_for st 0 p m).importance_factor = 13421781 / 8 := by
    intro st p m hm
    show f32_mul (f32_add (f32_mul (f32 (m.interactionCount : ℚ)) c_0_1f) 1) 1 = 13421781 / 8
    rw [hm, show (((16777217 : Int) : ℚ)) = 16777217 by norm_num, f32_two_pow_24_succ,
      importance_at_two_pow_24]
  refine ⟨?_, lt_irrefl _⟩
  rw [calculateProcessPriorities_pair _ 0 1 2 _ _ rfl
    (by rw [h2 _ 2 _ rfl, h1 _ 1 _ rfl]; exact lt_irrefl _)]
  simp only [List.map_cons, List.map_nil]
  rw [h1 _ 1 _ rfl, h2 _ 2 _ rfl]
  rfl

/-- C22, amended: for every scheduler state the process ids of the decisions returned by
`calculateProcessPriorities` are a permutation of `getAllPIDs`; and whenever process a
has strictly more recorded interactions than process b and the count of b is in
`[0, 2^20)`, the decision of a is in the list with a strictly larger `importance_factor`
than the decision of b and comes before it, whatever the cpu usage, io usage and
dependency edges are. -/
theorem calculateProcessPriorities_complete_and_ranked (s : AdaptiveScheduler) (now : Int) :
    ((s.calculateProcessPriorities now).map SchedulingDecision.process_id).Perm
      s.getAllPIDs ∧
    (∀ ka ∈ s.processMetrics, ∀ kb ∈ s.processMetrics,
      0 ≤ kb.2.interactionCount → kb.2.interactionCount < 1048576 →
      kb.2.interactionCount < ka.2.interactionCount →
      ∃ da ∈ s.calculateProcessPriorities now, ∃ db ∈ s.calculateProcessPriorities now,
        da = AdaptiveScheduler.decide_for s now ka.1 ka.2 ∧
        db = AdaptiveScheduler.decide_for s now kb.1 kb.2 ∧
        da.process_id = ka.1 ∧ db.process_id = kb.1 ∧
        db.importance_factor < da.importance_factor ∧
        List.Sublist [da, db] (s.calculateProcessPriorities now)) := by
  constructor
  · have h := (perm_std_sort AdaptiveScheduler.importanceGreater
      (s.processMetrics.map (fun kv => AdaptiveScheduler.decide_for s now kv.1 kv.2))).map
        SchedulingDecision.process_id
    have hmap : (s.processMetrics.map
        (fun kv => AdaptiveScheduler.decide_for s now kv.1 kv.2)).map
          SchedulingDecision.process_id = s.getAllPIDs := by
      rw [List.map_map]
      rfl
    rw [hmap] at h
    exact h
  · intro ka hka kb hkb hb0 hb hab
    have hma := (mem_calculateProcessPriorities s now _).2 ⟨ka, hka, rfl⟩
    have hmb := (mem_calculateProcessPriorities s now _).2 ⟨kb, hkb, rfl⟩
    have hlt : (AdaptiveScheduler.decide_for s now kb.1 kb.2).importance_factor <
        (AdaptiveScheduler.decide_for s now ka.1 ka.2).importance_factor :=
      importance_strict ka.2.interactionCount kb.2.interactionCount hb0 hb hab
    refine ⟨_, hma, _, hmb, rfl, rfl, rfl, rfl, hlt, ?_⟩
    have hne : AdaptiveScheduler.decide_for s now ka.1 ka.2 ≠
        AdaptiveScheduler.decide_for s now kb.1 kb.2 := by
      intro heq
      rw [heq] at hlt
      exact lt_irrefl _ hlt
    rcases sublist_pair_of_mem _ _ _ hma hmb hne with h | h
    · exact h
    · have hsorted := calculateProcessPriorities_sorted_by_importance s now
      have := List.pairwise_iff_forall_sublist.1 hsorted h
      exact absurd hlt (not_lt.2 this)

/-- C22, amended, at a concrete state: pid 2 (3 interactions, high cpu and io usage, three
dependency edges) is stored before pid 1 (5 interactions); the decision of pid 1 has the
larger importance factor and is returned first. -/
theorem calculateProcessPriorities_complete_and_ranked_witness :
    ∃ da ∈ AdaptiveScheduler.calculateProcessPriorities
        { processMetrics :=
            [(2, { lastInteractionTime := 50, interactionCount := 3, burstCount := 0,
                   cpuUsage := 90, ioUsage := 80 }),
             (1, { lastInteractionTime := 10, interactionCount := 5, burstCount := 0,
                   cpuUsage := 0, ioUsage := 0 })],
          userProfiles := [(2, { pid := 2, name := "b" }), (1, { pid := 1, name := "a" })],
          dependencies := [(2, [7, 8, 9])] } 100,
      ∃ db ∈ AdaptiveScheduler.calculateProcessPriorities
        { processMetrics :=
            [(2, { lastInteractionTime := 50, interactionCount := 3, burstCount := 0,
                   cpuUsage := 90, ioUsage := 80 }),
             (1, { lastInteractionTime := 10, interactionCount := 5, burstCount := 0,
                   cpuUsage := 0, ioUsage := 0 })],
          userProfiles := [(2, { pid := 2, name := "b" }), (1, { pid := 1, name := "a" })],
          dependencies := [(2, [7, 8, 9])] } 100,
        da.process_id = 1 ∧ db.process_id = 2 ∧
        db.importance_factor < da.importance_factor ∧
        List.Sublist [da, db] (AdaptiveScheduler.calculateProcessPriorities
          { processMetrics :=
              [(2, { lastInteractionTime := 50, interactionCount := 3, burstCount := 0,
                     cpuUsage := 90, ioUsage := 80 }),
               (1, { lastInteractionTime := 10, interactionCount := 5, burstCount := 0,
                     cpuUsage := 0, ioUsage := 0 })],
            userProfiles := [(2, { pid := 2, name := "b" }), (1, { pid := 1, name := "a" })],
            dependencies := [(2, [7, 8, 9])] } 100) := by
  obtain ⟨da, hda, db, hdb, _, _, h1, h2, h3, h4⟩ :=
    (calculateProcessPriorities_complete_and_ranked
      { processMetrics :=
          [(2, { lastInteractionTime := 50, interactionCount := 3, burstCount := 0,
                 cpuUsage := 90, ioUsage := 80 }),
           (1, { lastInteractionTime := 10, interactionCount := 5, burstCount := 0,
                 cpuUsage := 0, ioUsage := 0 })],
        userProfiles := [(2, { pid := 2, name := "b" }), (1, { pid := 1, name := "a" })],
        dependencies := [(2, [7, 8, 9])] } 100).2
      (1, { lastInteractionTime := 10, interactionCount := 5, burstCount := 0,
            cpuUsage := 0, ioUsage := 0 }) (by simp)
      (2, { lastInteractionTime := 50, interactionCount := 3, burstCount := 0,
            cpuUsage := 90, ioUsage := 80 }) (by simp)
      (by decide) (by decide) (by decide)
  exact ⟨da, hda, db, hdb, h1, h2, h3, h4⟩

end OSProj
